import Mathlib

/-!
# k8s-resource-mapper: a shallow embedding of `k8s-mapper.go`

The program lists the resources of every namespace of a cluster and prints four
views per namespace.  The embedding keeps the program's structure:

* the records the program reads from the cluster API (only the fields it reads);
* the snapshot source as a record of list operations, each answering with a list or
  an error: `Source` answers call by call (every list operation is a network call of
  its own, so a list may succeed once and fail when it is fetched again), `Clientset`
  is the source whose answers do not change during the run;
* a run of a function as the sequence of events it produces (text written to the
  output stream, requests issued to the clientset) together with how it ended
  (returned normally, returned an error, or stopped on a nil-pointer dereference);
* the functions of the program, statement by statement, against a `Clientset` and,
  in `Live`, against a `Source`; the two agree on a source whose answers do not change.
-/

namespace K8sMapper

/-! ## Records read from the cluster API -/

/-- The `Name` of the object a ConfigMap source points at
(`ConfigMapVolumeSource`, `ConfigMapEnvSource` and `ConfigMapKeySelector` all embed
a `LocalObjectReference`). -/
structure ConfigMapRef where
  name : String
deriving DecidableEq, Repr

/-- A `v1.Volume`: `configMap` is the pointer `volume.ConfigMap`. -/
structure Volume where
  name : String
  configMap : Option ConfigMapRef
deriving DecidableEq, Repr

/-- A `v1.EnvFromSource`: `configMapRef` is the pointer `envFrom.ConfigMapRef`. -/
structure EnvFromSource where
  configMapRef : Option ConfigMapRef
deriving DecidableEq, Repr

/-- A `v1.EnvVarSource`: `configMapKeyRef` is the pointer `ValueFrom.ConfigMapKeyRef`. -/
structure EnvVarSource where
  configMapKeyRef : Option ConfigMapRef
deriving DecidableEq, Repr

/-- A `v1.EnvVar`: `valueFrom` is the pointer `env.ValueFrom`. -/
structure EnvVar where
  name : String
  valueFrom : Option EnvVarSource
deriving DecidableEq, Repr

/-- A `v1.Container`. -/
structure Container where
  name : String
  envFrom : List EnvFromSource
  env : List EnvVar
deriving DecidableEq, Repr

/-- A `v1.Pod`.  A Go `map[string]string` is kept as an association list. -/
structure Pod where
  name : String
  labels : List (String × String)
  phase : String
  nodeName : String
  volumes : List Volume
  containers : List Container
deriving DecidableEq, Repr

/-- An `appsv1.Deployment`: `replicas` is the pointer `d.Spec.Replicas`. -/
structure Deployment where
  name : String
  replicas : Option Int
  availableReplicas : Int
deriving DecidableEq, Repr

/-- A `v1.Service`: `selector` is the map `service.Spec.Selector`. -/
structure Service where
  name : String
  type : String
  clusterIP : String
  externalIPs : List String
  selector : List (String × String)
deriving DecidableEq, Repr

/-- A `v1.ConfigMap`. -/
structure ConfigMap where
  name : String
deriving DecidableEq, Repr

/-- A `networkingv1.IngressServiceBackend`. -/
structure IngressServiceBackend where
  name : String
deriving DecidableEq, Repr

/-- A `networkingv1.IngressBackend`: `service` is the pointer `Backend.Service`
(nil for a resource backend). -/
structure IngressBackend where
  service : Option IngressServiceBackend
deriving DecidableEq, Repr

/-- A `networkingv1.HTTPIngressPath`. -/
structure HTTPIngressPath where
  path : String
  backend : IngressBackend
deriving DecidableEq, Repr

/-- A `networkingv1.IngressRule`: `http` is the pointer `rule.HTTP`, holding the
paths of the `HTTPIngressRuleValue`. -/
structure IngressRule where
  host : String
  http : Option (List HTTPIngressPath)
deriving DecidableEq, Repr

/-- A `networkingv1.Ingress`. -/
structure Ingress where
  name : String
  rules : List IngressRule
deriving DecidableEq, Repr

/-! ## The clientset and the run-time library -/

/-- A request to the cluster API.  `pods ns sel` carries the `LabelSelector` of the
`ListOptions` (`""` for `ListOptions{}`). -/
inductive Request where
  | namespaces
  | deployments (ns : String)
  | services (ns : String)
  | pods (ns : String) (labelSelector : String)
  | configMaps (ns : String)
  | ingresses (ns : String)
deriving DecidableEq, Repr

/-- The list operations of `kubernetes.Clientset` the program uses, for a cluster
whose answers do not change while the program runs: the same request is answered alike
every time it is issued.  A Go `error` is kept as its message.  (The source whose
answers may differ from one call to the next is `Source`, below; a `Clientset` is the
source `Clientset.steady`.) -/
structure Clientset where
  namespaces : Except String (List String)
  deployments : String → Except String (List Deployment)
  services : String → Except String (List Service)
  pods : String → String → Except String (List Pod)
  configMaps : String → Except String (List ConfigMap)
  ingresses : String → Except String (List Ingress)

/-- What the program takes from libraries outside the repository:
`metav1.FormatLabelSelector` applied to a selector given by its `MatchLabels`, and
the order in which `range` visits the keys of a map (any rearrangement of them). -/
structure Platform where
  formatLabelSelector : List (String × String) → String
  rangeOrder : List String → List String
  rangeOrder_perm : ∀ keys, (rangeOrder keys).Perm keys

/-! ## Output lines -/

/-- One constructor per print statement of the program, with the arguments the
statement formats. -/
inductive Line where
  | initError (e : String)
  | banner
  | separator
  | namespacesError (e : String)
  | analyzing (ns : String)
  | resourcesError (e : String)
  | connectionsError (e : String)
  | relationshipsError (e : String)
  | usageError (e : String)
  | complete
  | resourcesHeader (ns : String)
  | deploymentsHeader
  | deployment (name : String) (replicas available : Int)
  | servicesHeader
  | service (name type clusterIP : String) (externalIPs : List String)
  | podsHeader
  | pod (name phase nodeName : String)
  | configMapsHeader
  | configMap (name : String)
  | connectionsHeader (ns : String)
  | serviceHeader (name : String)
  | selectors (selector : List (String × String))
  | connectedPods
  | connectedPod (arrow name : String)
  | relationshipsHeader (ns : String)
  | externalTraffic
  | bar
  | down
  | ingressLayer
  | ingressEntry (name : String)
  | ingressPath (arrow service : String)
  | serviceLayer
  | serviceEntry (name : String)
  | servicePod (arrow name : String)
  | usageHeader (ns : String)
  | configMapEntry (name : String)
  | usedByPods
  | usagePod (arrow name : String)
  | usageType (usage : String)
deriving DecidableEq, Repr

/-- What a run does, in order: write a line, or issue a request. -/
inductive Event where
  | out (l : Line)
  | call (r : Request)
deriving DecidableEq, Repr

/-! ## The text of the output -/

/-- The ANSI colour codes of the program. -/
def colorRed : String := "\x1b[0;31m"

/-- Green. -/
def colorGreen : String := "\x1b[0;32m"

/-- Blue. -/
def colorBlue : String := "\x1b[0;34m"

/-- Yellow. -/
def colorYellow : String := "\x1b[1;33m"

/-- Cyan. -/
def colorCyan : String := "\x1b[0;36m"

/-- Reset. -/
def colorReset : String := "\x1b[0m"

/-- Go compares strings byte by byte; on UTF-8 text that is the lexicographic order
of the code points, which is how the names are compared here. -/
def strLE (a b : String) : Prop := a.toList ≤ b.toList

instance : DecidableRel strLE :=
  fun a b => inferInstanceAs (Decidable (a.toList ≤ b.toList))

/-- Strictly ascending order of names. -/
def strLT (a b : String) : Prop := a.toList < b.toList

instance : DecidableRel strLT :=
  fun a b => inferInstanceAs (Decidable (a.toList < b.toList))

instance : IsTotal String strLE := ⟨fun a b => le_total a.toList b.toList⟩

instance : IsTrans String strLE :=
  ⟨fun a b c (h1 : a.toList ≤ b.toList) (h2 : b.toList ≤ c.toList) => le_trans h1 h2⟩

instance : IsAntisymm String strLE :=
  ⟨fun _ _ (h1 : _ ≤ _) (h2 : _ ≤ _) => String.toList_inj.1 (le_antisymm h1 h2)⟩

instance : IsTotal Pod (fun a b => strLE a.name b.name) :=
  ⟨fun a b => le_total a.name.toList b.name.toList⟩

instance : IsTrans Pod (fun a b => strLE a.name b.name) :=
  ⟨fun a b c (h1 : a.name.toList ≤ b.name.toList) (h2 : b.name.toList ≤ c.name.toList) =>
    le_trans h1 h2⟩

/-- The verb `%v` on a `[]string`. -/
def formatSlice (xs : List String) : String :=
  "[" ++ " ".intercalate xs ++ "]"

/-- The verb `%v` on a `map[string]string`: the entries in ascending order of key. -/
def formatMap (m : List (String × String)) : String :=
  "map[" ++ " ".intercalate
    ((m.insertionSort (fun a b => strLE a.1 b.1)).map (fun kv => kv.1 ++ ":" ++ kv.2)) ++ "]"

/-- The text each print statement writes. -/
def Line.render : Line → String
  | .initError e => "Error initializing resource mapper: " ++ e ++ "\n"
  | .banner => colorGreen ++ "Kubernetes Resource Mapper" ++ colorReset ++ "\n"
  | .separator => String.mk (List.replicate 80 '-') ++ "\n"
  | .namespacesError e => "Error getting namespaces: " ++ e ++ "\n"
  | .analyzing ns => colorRed ++ "Analyzing namespace: " ++ ns ++ colorReset ++ "\n"
  | .resourcesError e => "Error getting resources: " ++ e ++ "\n"
  | .connectionsError e => "Error mapping service connections: " ++ e ++ "\n"
  | .relationshipsError e => "Error showing resource relationships: " ++ e ++ "\n"
  | .usageError e => "Error showing ConfigMap usage: " ++ e ++ "\n"
  | .complete => colorGreen ++ "Resource mapping complete!" ++ colorReset ++ "\n"
  | .resourcesHeader ns =>
    colorGreen ++ "Resources in namespace: " ++ ns ++ colorReset ++ "\n"
  | .deploymentsHeader => "\n" ++ colorYellow ++ "Deployments:" ++ colorReset ++ "\n"
  | .deployment name replicas available =>
    name ++ " " ++ toString replicas ++ " " ++ toString available ++ "\n"
  | .servicesHeader => "\n" ++ colorYellow ++ "Services:" ++ colorReset ++ "\n"
  | .service name type clusterIP externalIPs =>
    name ++ " " ++ type ++ " " ++ clusterIP ++ " " ++ formatSlice externalIPs ++ "\n"
  | .podsHeader => "\n" ++ colorYellow ++ "Pods:" ++ colorReset ++ "\n"
  | .pod name phase nodeName => name ++ " " ++ phase ++ " " ++ nodeName ++ "\n"
  | .configMapsHeader => "\n" ++ colorYellow ++ "ConfigMaps:" ++ colorReset ++ "\n"
  | .configMap name => name ++ "\n"
  | .connectionsHeader ns =>
    "\n" ++ colorBlue ++ "Service connections in namespace: " ++ ns ++ colorReset ++ "\n"
  | .serviceHeader name => "\n" ++ colorYellow ++ "Service: " ++ name ++ colorReset ++ "\n"
  | .selectors selector => "├── Selectors: " ++ formatMap selector ++ "\n"
  | .connectedPods => "└── Connected Pods:\n"
  | .connectedPod arrow name => "    " ++ arrow ++ " " ++ name ++ "\n"
  | .relationshipsHeader ns =>
    "\n" ++ colorBlue ++ "Resource relationships in namespace: " ++ ns ++ colorReset ++ "\n\n"
  | .externalTraffic => "External Traffic\n"
  | .bar => "│\n"
  | .down => "▼\n"
  | .ingressLayer => "[Ingress Layer]\n"
  | .ingressEntry name => "├── " ++ name ++ "\n"
  | .ingressPath arrow target => "│   " ++ arrow ++ " Service: " ++ target ++ "\n"
  | .serviceLayer => "[Service Layer]\n"
  | .serviceEntry name => "├── " ++ name ++ "\n"
  | .servicePod arrow name => "│   " ++ arrow ++ " Pod: " ++ name ++ "\n"
  | .usageHeader ns =>
    "\n" ++ colorCyan ++ "ConfigMap usage in namespace: " ++ ns ++ colorReset ++ "\n"
  | .configMapEntry name => "\nConfigMap: " ++ name ++ "\n"
  | .usedByPods => "└── Used by pods:\n"
  | .usagePod arrow name => "    " ++ arrow ++ " " ++ name ++ "\n"
  | .usageType usage => "        - " ++ usage ++ "\n"

/-- The text on the output stream after a run. -/
def stdoutOf (trace : List Event) : String :=
  String.join (trace.filterMap (fun ev =>
    match ev with
    | .out l => some l.render
    | .call _ => none))

/-! ## Runs -/

/-- How a function ended: it returned a value, returned a non-nil `error`, or
dereferenced a nil pointer (a run-time panic, which nothing in the program
recovers). -/
inductive Res (α : Type) where
  | ok (a : α)
  | err (e : String)
  | crash
deriving DecidableEq, Repr

/-- A run: the events produced, and how it ended. -/
structure Run (α : Type) where
  trace : List Event
  res : Res α

namespace Run

/-- Sequencing: the rest runs only after a normal return. -/
def andThen {α β : Type} (m : Run α) (f : α → Run β) : Run β :=
  match m.res with
  | .ok a => ⟨m.trace ++ (f a).trace, (f a).res⟩
  | .err e => ⟨m.trace, .err e⟩
  | .crash => ⟨m.trace, .crash⟩

instance : Monad Run where
  pure a := ⟨[], .ok a⟩
  bind := andThen

end Run

/-- A print statement. -/
def emit (l : Line) : Run Unit := ⟨[.out l], .ok ()⟩

/-- A list request and the `if err != nil { return err }` that follows it. -/
def request {α : Type} (r : Request) (answer : Except String α) : Run α :=
  ⟨[.call r], match answer with
    | .ok a => .ok a
    | .error e => .err e⟩

/-- A pointer dereference. -/
def deref {α : Type} : Option α → Run α
  | some a => ⟨[], .ok a⟩
  | none => ⟨[], .crash⟩

/-- A `for _, x := range xs` loop whose body may return from the function. -/
def forEach {α : Type} : List α → (α → Run Unit) → Run Unit
  | [], _ => ⟨[], .ok ()⟩
  | x :: xs, body => Run.andThen (body x) (fun _ => forEach xs body)

/-! ## The program -/

/-- The function `createArrow`. -/
def createArrow (length : Nat) : String :=
  String.mk (List.replicate length '-') ++ ">"

/-- The test `ref != nil && ref.Name == configMapName`. -/
def namesConfigMap (ref : Option ConfigMapRef) (configMapName : String) : Bool :=
  match ref with
  | some r => r.name == configMapName
  | none => false

/-- The test `env.ValueFrom != nil && env.ValueFrom.ConfigMapKeyRef != nil &&
env.ValueFrom.ConfigMapKeyRef.Name == configMapName`. -/
def envNamesConfigMap (env : EnvVar) (configMapName : String) : Bool :=
  match env.valueFrom with
  | some src => namesConfigMap src.configMapKeyRef configMapName
  | none => false

/-- The function `findConfigMapUsage`: three loops appending to `usageTypes`. -/
def findConfigMapUsage (pod : Pod) (configMapName : String) : List String :=
  let usageTypes : List String := []
  let usageTypes := pod.volumes.foldl (fun usageTypes volume =>
    if namesConfigMap volume.configMap configMapName then
      usageTypes ++ ["Mounted as volume"]
    else usageTypes) usageTypes
  let usageTypes := pod.containers.foldl (fun usageTypes container =>
    let usageTypes := container.envFrom.foldl (fun usageTypes envFrom =>
      if namesConfigMap envFrom.configMapRef configMapName then
        usageTypes ++ ["Used in envFrom"]
      else usageTypes) usageTypes
    container.env.foldl (fun usageTypes env =>
      if envNamesConfigMap env configMapName then
        usageTypes ++ ["Used in environment variables"]
      else usageTypes) usageTypes) usageTypes
  usageTypes

/-- The library function `sort.Strings`: the names in ascending order. -/
def sortStrings (names : List String) : List String :=
  names.insertionSort strLE

/-- The assignment `m[key] = value` on a map kept as an association list. -/
def mapSet (m : List (String × List String)) (key : String) (value : List String) :
    List (String × List String) :=
  if m.any (fun kv => kv.1 == key) then
    m.map (fun kv => if kv.1 == key then (key, value) else kv)
  else m ++ [(key, value)]

/-- The lookup `m[key]` (the zero value, a nil slice, for an absent key). -/
def mapGet (m : List (String × List String)) (key : String) : List String :=
  match m.lookup key with
  | some value => value
  | none => []

/-- The function `getResources`. -/
def getResources (rm : Clientset) (ns : String) : Run Unit := do
  emit (.resourcesHeader ns)
  emit .deploymentsHeader
  let deployments ← request (.deployments ns) (rm.deployments ns)
  forEach deployments fun d => do
    let replicas ← deref d.replicas
    emit (.deployment d.name replicas d.availableReplicas)
  emit .servicesHeader
  let services ← request (.services ns) (rm.services ns)
  forEach services fun s =>
    emit (.service s.name s.type s.clusterIP s.externalIPs)
  emit .podsHeader
  let pods ← request (.pods ns "") (rm.pods ns "")
  forEach pods fun p =>
    emit (.pod p.name p.phase p.nodeName)
  emit .configMapsHeader
  let configmaps ← request (.configMaps ns) (rm.configMaps ns)
  forEach configmaps fun cm =>
    emit (.configMap cm.name)

/-- The body of the service loop of `mapServiceConnections`. -/
def serviceConnections (pf : Platform) (rm : Clientset) (ns : String) (service : Service) :
    Run Unit := do
  emit (.serviceHeader service.name)
  if service.selector.length > 0 then
    emit (.selectors service.selector)
    let labelSelector := pf.formatLabelSelector service.selector
    let pods ← request (.pods ns labelSelector) (rm.pods ns labelSelector)
    if pods.length > 0 then
      emit .connectedPods
      forEach pods fun pod =>
        emit (.connectedPod (createArrow 4) pod.name)

/-- The function `mapServiceConnections`. -/
def mapServiceConnections (pf : Platform) (rm : Clientset) (ns : String) : Run Unit := do
  emit (.connectionsHeader ns)
  let services ← request (.services ns) (rm.services ns)
  forEach services (serviceConnections pf rm ns)

/-- The body of the ingress loop of `showResourceRelationships`. -/
def ingressRelationships (ingress : Ingress) : Run Unit := do
  emit (.ingressEntry ingress.name)
  forEach ingress.rules fun rule =>
    match rule.http with
    | some paths =>
      forEach paths fun path => do
        let service ← deref path.backend.service
        emit (.ingressPath (createArrow 4) service.name)
    | none => pure ()

/-- The body of the service loop of `showResourceRelationships`. -/
def serviceRelationships (pf : Platform) (rm : Clientset) (ns : String) (service : Service) :
    Run Unit := do
  emit (.serviceEntry service.name)
  if service.selector.length > 0 then
    let labelSelector := pf.formatLabelSelector service.selector
    let pods ← request (.pods ns labelSelector) (rm.pods ns labelSelector)
    forEach pods fun pod =>
      emit (.servicePod (createArrow 4) pod.name)

/-- The function `showResourceRelationships`. -/
def showResourceRelationships (pf : Platform) (rm : Clientset) (ns : String) : Run Unit := do
  emit (.relationshipsHeader ns)
  emit .externalTraffic
  emit .bar
  let ingresses ← request (.ingresses ns) (rm.ingresses ns)
  if ingresses.length > 0 then
    emit .down
    emit .ingressLayer
    forEach ingresses ingressRelationships
    emit .bar
  emit .down
  emit .serviceLayer
  let services ← request (.services ns) (rm.services ns)
  forEach services (serviceRelationships pf rm ns)

/-- The map `usagePods` built by the pod loop of `showConfigMapUsage`. -/
def usagePodsOf (pods : List Pod) (configMapName : String) : List (String × List String) :=
  pods.foldl (fun usagePods pod =>
    let usageTypes := findConfigMapUsage pod configMapName
    if usageTypes.length > 0 then mapSet usagePods pod.name usageTypes else usagePods) []

/-- The body of the ConfigMap loop of `showConfigMapUsage`. -/
def configMapUsage (pf : Platform) (pods : List Pod) (cm : ConfigMap) : Run Unit := do
  emit (.configMapEntry cm.name)
  let usagePods := usagePodsOf pods cm.name
  if usagePods.length > 0 then
    emit .usedByPods
    let podNames := sortStrings (pf.rangeOrder (usagePods.map Prod.fst))
    forEach podNames fun podName => do
      emit (.usagePod (createArrow 4) podName)
      forEach (mapGet usagePods podName) fun usageType =>
        emit (.usageType usageType)

/-- The function `showConfigMapUsage`. -/
def showConfigMapUsage (pf : Platform) (rm : Clientset) (ns : String) : Run Unit := do
  emit (.usageHeader ns)
  let configmaps ← request (.configMaps ns) (rm.configMaps ns)
  let pods ← request (.pods ns "") (rm.pods ns "")
  forEach configmaps (configMapUsage pf pods)

/-- The statement `if err := step; err != nil { print; continue }` of the namespace
loop of `main`, followed by the rest of the loop body. -/
def orSkip (step : Run Unit) (report : String → Line) (rest : Run Unit) : Run Unit :=
  match step.res with
  | .ok _ => ⟨step.trace ++ rest.trace, rest.res⟩
  | .err e => ⟨step.trace ++ [.out (report e)], .ok ()⟩
  | .crash => ⟨step.trace, .crash⟩

/-- The four views of a namespace, as the body of the namespace loop runs them. -/
def namespaceViews (pf : Platform) (rm : Clientset) (ns : String) : Run Unit :=
  orSkip (getResources rm ns) .resourcesError <|
  orSkip (mapServiceConnections pf rm ns) .connectionsError <|
  orSkip (showResourceRelationships pf rm ns) .relationshipsError <|
  orSkip (showConfigMapUsage pf rm ns) .usageError <|
  emit .separator

/-- The body of the namespace loop of `main`. -/
def processNamespace (pf : Platform) (rm : Clientset) (ns : String) : Run Unit := do
  emit .separator
  emit (.analyzing ns)
  emit .separator
  namespaceViews pf rm ns

/-- How the process ends: exit status 0, `os.Exit(1)`, or a run-time panic. -/
inductive Exit where
  | success
  | failure
  | crashed
deriving DecidableEq, Repr

/-- A run of the whole program. -/
structure Outcome where
  trace : List Event
  exit : Exit
deriving DecidableEq, Repr

/-- The function `main`.  `newResourceMapper` is what `NewResourceMapper` returned:
a clientset, or the error of building the configuration or the client. -/
def main (pf : Platform) (newResourceMapper : Except String Clientset) : Outcome :=
  match newResourceMapper with
  | .error e => ⟨[.out (.initError e)], .failure⟩
  | .ok rm =>
    match rm.namespaces with
    | .error e =>
      ⟨[.out .banner, .out .separator, .call .namespaces, .out (.namespacesError e)], .failure⟩
    | .ok namespaces =>
      let loop := forEach namespaces (processNamespace pf rm)
      match loop.res with
      | .crash => ⟨[.out .banner, .out .separator, .call .namespaces] ++ loop.trace, .crashed⟩
      | _ =>
        ⟨[.out .banner, .out .separator, .call .namespaces] ++ loop.trace ++ [.out .complete],
          .success⟩

/-! ## Reference counts used to state what `findConfigMapUsage` returns -/

/-- The volumes of the pod with a ConfigMap source of the given name. -/
def volumeRefs (pod : Pod) (n : String) : List Volume :=
  pod.volumes.filter (fun v => namesConfigMap v.configMap n)

/-- The envFrom entries, over all containers, whose ConfigMap reference has the
given name. -/
def envFromRefs (pod : Pod) (n : String) : List EnvFromSource :=
  pod.containers.flatMap (fun c => c.envFrom.filter (fun e => namesConfigMap e.configMapRef n))

/-- The environment variables, over all containers, whose value-from ConfigMap key
reference has the given name. -/
def envRefs (pod : Pod) (n : String) : List EnvVar :=
  pod.containers.flatMap (fun c => c.env.filter (fun e => envNamesConfigMap e n))

/-- The result of the container loop, container by container. -/
def containerUsage (c : Container) (n : String) : List String :=
  List.replicate (c.envFrom.filter (fun e => namesConfigMap e.configMapRef n)).length
      "Used in envFrom"
    ++ List.replicate (c.env.filter (fun e => envNamesConfigMap e n)).length
      "Used in environment variables"

/-! ## What the views list, in the words of the specification -/

/-- Label matching: the labels of the pod contain every (key, value) pair of the
selector. -/
def hasLabels (selector : List (String × String)) (pod : Pod) : Bool :=
  selector.all (fun kv => decide (kv ∈ pod.labels))

/-- The pods the clientset returned for the label query of a service (none when the
query failed). -/
def selectedPods (pf : Platform) (rm : Clientset) (ns : String) (s : Service) : List Pod :=
  match rm.pods ns (pf.formatLabelSelector s.selector) with
  | .ok pods => pods
  | .error _ => []

/-- The service-connections view of one service under which `listed` is listed: the
service line and, for a non-empty selector only, the selector line, the pod query and
the listed pods. -/
def connectionLines (pf : Platform) (ns : String) (s : Service) (listed : List Pod) :
    List Event :=
  .out (.serviceHeader s.name) ::
    if s.selector = [] then []
    else
      [.out (.selectors s.selector), .call (.pods ns (pf.formatLabelSelector s.selector))] ++
        if listed = [] then []
        else .out .connectedPods ::
          listed.map (fun p => .out (.connectedPod (createArrow 4) p.name))

/-- The service layer of the relationships view for one service under which `listed`
is listed. -/
def relationshipLines (pf : Platform) (ns : String) (s : Service) (listed : List Pod) :
    List Event :=
  .out (.serviceEntry s.name) ::
    if s.selector = [] then []
    else
      .call (.pods ns (pf.formatLabelSelector s.selector)) ::
        listed.map (fun p => .out (.servicePod (createArrow 4) p.name))

/-- The paths of the HTTP rules of an ingress, in declared order. -/
def ingressPaths (i : Ingress) : List HTTPIngressPath :=
  i.rules.flatMap (fun r =>
    match r.http with
    | some paths => paths
    | none => [])

/-- The target service name of a path (for a path that names a service). -/
def targetName (p : HTTPIngressPath) : String :=
  match p.backend.service with
  | some s => s.name
  | none => ""

/-- Every path of the ingress names a service. -/
def namesServices (i : Ingress) : Bool :=
  (ingressPaths i).all (fun p => p.backend.service.isSome)

/-- The lines of one ingress: its name, then one line per path with the target
service name. -/
def ingressLines (i : Ingress) : List Event :=
  .out (.ingressEntry i.name) ::
    (ingressPaths i).map (fun p => .out (.ingressPath (createArrow 4) (targetName p)))

/-- The ingress layer: omitted when there is no ingress. -/
def ingressLayerLines (ingresses : List Ingress) : List Event :=
  if ingresses = [] then []
  else [.out .down, .out .ingressLayer] ++ ingresses.flatMap ingressLines ++ [.out .bar]

/-- The service layer of the relationships view, as `showResourceRelationships` runs it
after the ingress layer. -/
def serviceLayer (pf : Platform) (rm : Clientset) (ns : String) : Run Unit := do
  emit .down
  emit .serviceLayer
  let services ← request (.services ns) (rm.services ns)
  forEach services (serviceRelationships pf rm ns)

/-- The requests of a trace, in order. -/
def requestsOf (trace : List Event) : List Request :=
  trace.filterMap (fun ev =>
    match ev with
    | .call r => some r
    | .out _ => none)

/-- The lines of a trace, in order. -/
def linesOf (trace : List Event) : List Line :=
  trace.filterMap (fun ev =>
    match ev with
    | .out l => some l
    | .call _ => none)

/-- The pod names of the "Connected Pods" lines of a trace, in order. -/
def connectedPodNames (trace : List Event) : List String :=
  trace.filterMap (fun ev =>
    match ev with
    | .out (.connectedPod _ name) => some name
    | _ => none)

/-- The pod names of the "Pod:" lines of a trace, in order. -/
def servicePodNames (trace : List Event) : List String :=
  trace.filterMap (fun ev =>
    match ev with
    | .out (.servicePod _ name) => some name
    | _ => none)

/-- The events of the relationships view before the ingress layer. -/
def relationshipsPrelude (ns : String) : List Event :=
  [.out (.relationshipsHeader ns), .out .externalTraffic, .out .bar, .call (.ingresses ns)]

/-- The deployment carries a replica count. -/
def hasReplicas (d : Deployment) : Bool := d.replicas.isSome

/-- The line of a deployment (for a deployment that carries a replica count). -/
def deploymentLine (d : Deployment) : Event :=
  .out (.deployment d.name (d.replicas.getD 0) d.availableReplicas)

/-- The events of `getResources` up to and including the request for the pods, given
the deployments and services listed before. -/
def resourceEventsToPods (ns : String) (ds : List Deployment) (svcs : List Service) :
    List Event :=
  [.out (.resourcesHeader ns), .out .deploymentsHeader, .call (.deployments ns)] ++
    ds.map deploymentLine ++
    [.out .servicesHeader, .call (.services ns)] ++
    svcs.map (fun s => .out (.service s.name s.type s.clusterIP s.externalIPs)) ++
    [.out .podsHeader, .call (.pods ns "")]

/-- The events of `getResources` when its four retrievals succeed. -/
def resourceEvents (ns : String) (ds : List Deployment) (svcs : List Service)
    (pods : List Pod) (cms : List ConfigMap) : List Event :=
  resourceEventsToPods ns ds svcs ++
    pods.map (fun p => .out (.pod p.name p.phase p.nodeName)) ++
    [.out .configMapsHeader, .call (.configMaps ns)] ++
    cms.map (fun cm => .out (.configMap cm.name))

/-- The entries of the usage view under one ConfigMap, given the map `usagePods` and
the pod names in the order in which they are printed. -/
def usageEntries (usagePods : List (String × List String)) (podNames : List String) :
    List Event :=
  podNames.flatMap (fun podName =>
    .out (.usagePod (createArrow 4) podName) ::
      (mapGet usagePods podName).map (fun u => .out (.usageType u)))

/-- The pod entry of the usage view for a pod that uses the ConfigMap: its name, then
one bullet per element of its `findConfigMapUsage` result. -/
def usageEntry (configMapName : String) (p : Pod) : List Event :=
  .out (.usagePod (createArrow 4) p.name) ::
    (findConfigMapUsage p configMapName).map (fun u => .out (.usageType u))

/-- The pod uses the ConfigMap: `findConfigMapUsage` returns a non-empty result. -/
def usesConfigMap (configMapName : String) (p : Pod) : Bool :=
  (findConfigMapUsage p configMapName).length > 0

/-- The three lines that open the processing of a namespace. -/
def namespaceBanner (ns : String) : List Event :=
  [.out .separator, .out (.analyzing ns), .out .separator]

/-- The kinds of list operation. -/
inductive Kind where
  | namespaces
  | deployments
  | services
  | pods
  | configMaps
  | ingresses
deriving DecidableEq, Repr

/-- The kind of a request. -/
def Request.kind : Request → Kind
  | .namespaces => .namespaces
  | .deployments _ => .deployments
  | .services _ => .services
  | .pods _ _ => .pods
  | .configMaps _ => .configMaps
  | .ingresses _ => .ingresses

/-- How many requests of a kind a trace holds. -/
def countKind (k : Kind) (trace : List Event) : Nat :=
  (requestsOf trace).countP (fun r => r.kind = k)

/-- The label queries of a service view: one per service with a non-empty selector. -/
def labelQueries (pf : Platform) (ns : String) (svcs : List Service) : List Request :=
  (svcs.filter (fun s => decide (s.selector ≠ []))).map
    (fun s => .pods ns (pf.formatLabelSelector s.selector))

/-- The pods that use the ConfigMap, in ascending order of name. -/
def usersOf (pods : List Pod) (configMapName : String) : List Pod :=
  (pods.filter (usesConfigMap configMapName)).insertionSort (fun a b => strLE a.name b.name)

/-- The run does not stop on a nil-pointer dereference. -/
structure NoCrash {α : Type} (m : Run α) : Prop where
  res_ne : m.res ≠ .crash

/-- A run that returns an error does so right after a request: the request is the
last event of its trace. -/
structure FailsAtCall {α : Type} (m : Run α) : Prop where
  at_call : ∀ e, m.res = .err e → ∃ pre r, m.trace = pre ++ [.call r]

/-! ## The snapshot source, call by call

Every list operation of the program is a network call of its own, so the same list may
succeed when one view fetches it and fail when a later view fetches it again.  A
`Source` answers a request according to how many requests the run has issued before
it; `Live` is the program run against such a source. -/

/-- The list operations of the clientset, call by call: the first argument of each
operation is the number of requests issued before this one. -/
structure Source where
  namespaces : Nat → Except String (List String)
  deployments : Nat → String → Except String (List Deployment)
  services : Nat → String → Except String (List Service)
  pods : Nat → String → String → Except String (List Pod)
  configMaps : Nat → String → Except String (List ConfigMap)
  ingresses : Nat → String → Except String (List Ingress)

/-- The source as it stands once `n` more requests have been issued. -/
def Source.after (src : Source) (n : Nat) : Source where
  namespaces k := src.namespaces (k + n)
  deployments k := src.deployments (k + n)
  services k := src.services (k + n)
  pods k := src.pods (k + n)
  configMaps k := src.configMaps (k + n)
  ingresses k := src.ingresses (k + n)

/-- A cluster whose answers do not change, as a source. -/
def Clientset.steady (rm : Clientset) : Source where
  namespaces _ := rm.namespaces
  deployments _ := rm.deployments
  services _ := rm.services
  pods _ := rm.pods
  configMaps _ := rm.configMaps
  ingresses _ := rm.ingresses

/-- The number of requests of a trace. -/
def ticks (trace : List Event) : Nat := (requestsOf trace).length

/-- A piece of the program run against a source: the source it is given is the source
as it stands when the piece starts. -/
def Live (α : Type) : Type := Source → Run α

namespace Live

/-- Sequencing: the rest runs, after a normal return, against the source as it stands
after the requests issued so far. -/
def andThen {α β : Type} (m : Live α) (f : α → Live β) : Live β :=
  fun src => Run.andThen (m src) (fun a => f a (src.after (ticks (m src).trace)))

instance : Monad Live where
  pure a := fun _ => ⟨[], .ok a⟩
  bind := andThen

/-- A piece of the program that issues no request. -/
def lift {α : Type} (r : Run α) : Live α := fun _ => r

/-- A print statement. -/
def emit (l : Line) : Live Unit := lift (K8sMapper.emit l)

/-- A pointer dereference. -/
def deref {α : Type} (o : Option α) : Live α := lift (K8sMapper.deref o)

/-- A list request, answered by the source as it stands, and the
`if err != nil { return err }` that follows it. -/
def request {α : Type} (r : Request) (answer : Source → Except String α) : Live α :=
  fun src => K8sMapper.request r (answer src)

/-- A `for _, x := range xs` loop whose body may return from the function. -/
def forEach {α : Type} : List α → (α → Live Unit) → Live Unit
  | [], _ => lift ⟨[], .ok ()⟩
  | x :: xs, body => andThen (body x) (fun _ => forEach xs body)

/-- The function `getResources`, call by call. -/
def getResources (ns : String) : Live Unit := do
  emit (.resourcesHeader ns)
  emit .deploymentsHeader
  let deployments ← request (.deployments ns) (fun src => src.deployments 0 ns)
  forEach deployments fun d => do
    let replicas ← deref d.replicas
    emit (.deployment d.name replicas d.availableReplicas)
  emit .servicesHeader
  let services ← request (.services ns) (fun src => src.services 0 ns)
  forEach services fun s =>
    emit (.service s.name s.type s.clusterIP s.externalIPs)
  emit .podsHeader
  let pods ← request (.pods ns "") (fun src => src.pods 0 ns "")
  forEach pods fun p =>
    emit (.pod p.name p.phase p.nodeName)
  emit .configMapsHeader
  let configmaps ← request (.configMaps ns) (fun src => src.configMaps 0 ns)
  forEach configmaps fun cm =>
    emit (.configMap cm.name)

/-- The body of the service loop of `mapServiceConnections`, call by call. -/
def serviceConnections (pf : Platform) (ns : String) (service : Service) : Live Unit := do
  emit (.serviceHeader service.name)
  if service.selector.length > 0 then
    emit (.selectors service.selector)
    let labelSelector := pf.formatLabelSelector service.selector
    let pods ← request (.pods ns labelSelector) (fun src => src.pods 0 ns labelSelector)
    if pods.length > 0 then
      emit .connectedPods
      forEach pods fun pod =>
        emit (.connectedPod (createArrow 4) pod.name)

/-- The function `mapServiceConnections`, call by call. -/
def mapServiceConnections (pf : Platform) (ns : String) : Live Unit := do
  emit (.connectionsHeader ns)
  let services ← request (.services ns) (fun src => src.services 0 ns)
  forEach services (serviceConnections pf ns)

/-- The body of the service loop of `showResourceRelationships`, call by call. -/
def serviceRelationships (pf : Platform) (ns : String) (service : Service) : Live Unit := do
  emit (.serviceEntry service.name)
  if service.selector.length > 0 then
    let labelSelector := pf.formatLabelSelector service.selector
    let pods ← request (.pods ns labelSelector) (fun src => src.pods 0 ns labelSelector)
    forEach pods fun pod =>
      emit (.servicePod (createArrow 4) pod.name)

/-- The function `showResourceRelationships`, call by call.  The body of the ingress
loop issues no request. -/
def showResourceRelationships (pf : Platform) (ns : String) : Live Unit := do
  emit (.relationshipsHeader ns)
  emit .externalTraffic
  emit .bar
  let ingresses ← request (.ingresses ns) (fun src => src.ingresses 0 ns)
  if ingresses.length > 0 then
    emit .down
    emit .ingressLayer
    forEach ingresses (fun ingress => lift (ingressRelationships ingress))
    emit .bar
  emit .down
  emit .serviceLayer
  let services ← request (.services ns) (fun src => src.services 0 ns)
  forEach services (serviceRelationships pf ns)

/-- The function `showConfigMapUsage`, call by call.  The body of the ConfigMap loop
issues no request. -/
def showConfigMapUsage (pf : Platform) (ns : String) : Live Unit := do
  emit (.usageHeader ns)
  let configmaps ← request (.configMaps ns) (fun src => src.configMaps 0 ns)
  let pods ← request (.pods ns "") (fun src => src.pods 0 ns "")
  forEach configmaps (fun cm => lift (configMapUsage pf pods cm))

/-- The statement `if err := step; err != nil { print; continue }` of the namespace
loop of `main`, followed by the rest of the loop body. -/
def orSkip (step : Live Unit) (report : String → Line) (rest : Live Unit) : Live Unit :=
  fun src => K8sMapper.orSkip (step src) report (rest (src.after (ticks (step src).trace)))

/-- The four views of a namespace, as the body of the namespace loop runs them. -/
def namespaceViews (pf : Platform) (ns : String) : Live Unit :=
  orSkip (getResources ns) .resourcesError <|
  orSkip (mapServiceConnections pf ns) .connectionsError <|
  orSkip (showResourceRelationships pf ns) .relationshipsError <|
  orSkip (showConfigMapUsage pf ns) .usageError <|
  emit .separator

/-- The body of the namespace loop of `main`, call by call. -/
def processNamespace (pf : Platform) (ns : String) : Live Unit := do
  emit .separator
  emit (.analyzing ns)
  emit .separator
  namespaceViews pf ns

/-- The function `main`, call by call.  `newResourceMapper` is what `NewResourceMapper`
returned: a connection to the source, or the error of building it.  The namespace
enumeration is the first request of the run. -/
def main (pf : Platform) (newResourceMapper : Except String Source) : Outcome :=
  match newResourceMapper with
  | .error e => ⟨[.out (.initError e)], .failure⟩
  | .ok src =>
    match src.namespaces 0 with
    | .error e =>
      ⟨[.out .banner, .out .separator, .call .namespaces, .out (.namespacesError e)], .failure⟩
    | .ok namespaces =>
      let loop := forEach namespaces (processNamespace pf) (src.after 1)
      match loop.res with
      | .crash => ⟨[.out .banner, .out .separator, .call .namespaces] ++ loop.trace, .crashed⟩
      | _ =>
        ⟨[.out .banner, .out .separator, .call .namespaces] ++ loop.trace ++ [.out .complete],
          .success⟩

/-- The four views of a namespace in sequence, up to the first error. -/
def namespaceSteps (pf : Platform) (ns : String) : Live Unit := do
  getResources ns
  mapServiceConnections pf ns
  showResourceRelationships pf ns
  showConfigMapUsage pf ns

/-- The output of the namespaces processed one after the other, each against the
source as it stands when its turn comes. -/
def namespaceOutputs (pf : Platform) : List String → Source → List Event
  | [], _ => []
  | ns :: rest, src =>
    (processNamespace pf ns src).trace ++
      namespaceOutputs pf rest (src.after (ticks (processNamespace pf ns src).trace))

/-- A run that returns an error does so right after a request, whatever the source. -/
structure StopsAtCall {α : Type} (m : Live α) : Prop where
  stops : ∀ src, FailsAtCall (m src)

/-- The output and the result are the same against any two sources that `agree`. -/
structure Local (agree : Source → Source → Prop) {α : Type} (m : Live α) : Prop where
  same : ∀ s1 s2, agree s1 s2 → m s1 = m s2

/-- No nil-pointer dereference against a source that satisfies `wf`. -/
structure Safe (wf : Source → Prop) {α : Type} (m : Live α) : Prop where
  safe : ∀ src, wf src → NoCrash (m src)

end Live

/-- The records a source returns for a namespace hold no nil pointer where the program
dereferences one: every deployment carries a replica count and every ingress path names
a service. -/
def NilFree (ns : String) (src : Source) : Prop :=
  (∀ n ds, src.deployments n ns = .ok ds → ∀ d ∈ ds, hasReplicas d = true) ∧
  (∀ n ings, src.ingresses n ns = .ok ings → ∀ i ∈ ings, namesServices i = true)

/-- Two sources answer the requests about a namespace alike, request by request. -/
def AgreeOn (ns : String) (s1 s2 : Source) : Prop :=
  ∀ n, s1.deployments n ns = s2.deployments n ns ∧
    s1.services n ns = s2.services n ns ∧
    (∀ sel, s1.pods n ns sel = s2.pods n ns sel) ∧
    s1.configMaps n ns = s2.configMaps n ns ∧
    s1.ingresses n ns = s2.ingresses n ns

/-! ## Concrete records -/

/-- A pod with two containers that both take the ConfigMap `app-config` in envFrom. -/
def twoEnvFromPod : Pod :=
  { name := "web-1", labels := [("app", "web")], phase := "Running", nodeName := "node-1",
    volumes := [],
    containers :=
      [{ name := "app", envFrom := [{ configMapRef := some { name := "app-config" } }], env := [] },
       { name := "sidecar", envFrom := [{ configMapRef := some { name := "app-config" } }],
         env := [] }] }

/-- A platform for the examples: selectors formatted as `key=value` joined by commas,
map keys visited in reverse order of insertion. -/
def demoPlatform : Platform where
  formatLabelSelector sel := ",".intercalate (sel.map (fun kv => kv.1 ++ "=" ++ kv.2))
  rangeOrder keys := keys.reverse
  rangeOrder_perm keys := List.reverse_perm keys

/-- Pod `web-1`: labelled `app=web`, mounts `app-config` and takes it in envFrom. -/
def web1 : Pod :=
  { name := "web-1", labels := [("app", "web")], phase := "Running", nodeName := "node-1",
    volumes := [{ name := "config", configMap := some { name := "app-config" } }],
    containers :=
      [{ name := "app", envFrom := [{ configMapRef := some { name := "app-config" } }],
         env := [] }] }

/-- Pod `web-2`: labelled `app=web`, reads one key of `app-config` into a variable. -/
def web2 : Pod :=
  { name := "web-2", labels := [("app", "web")], phase := "Running", nodeName := "node-2",
    volumes := [],
    containers :=
      [{ name := "app", envFrom := [],
         env := [{ name := "MODE",
                   valueFrom := some { configMapKeyRef := some { name := "app-config" } } }] }] }

/-- Pod `cache-1`: labelled `app=cache`, no ConfigMap reference. -/
def cache1 : Pod :=
  { name := "cache-1", labels := [("app", "cache")], phase := "Running", nodeName := "node-1",
    volumes := [], containers := [{ name := "redis", envFrom := [], env := [] }] }

/-- Service `web` with selector `app=web`. -/
def webService : Service :=
  { name := "web", type := "ClusterIP", clusterIP := "10.0.0.1", externalIPs := [],
    selector := [("app", "web")] }

/-- Service `external` with an empty selector. -/
def externalService : Service :=
  { name := "external", type := "ExternalName", clusterIP := "", externalIPs := [],
    selector := [] }

/-- Ingress `main`, routing `/` to a service `ghost` that is not in the namespace. -/
def mainIngress : Ingress :=
  { name := "main",
    rules := [{ host := "example.com",
                http := some [{ path := "/", backend := { service := some { name := "ghost" } } }] },
              { host := "plain.example.com", http := none }] }

/-- Ingress `assets`, whose path has a resource backend (no service). -/
def assetsIngress : Ingress :=
  { name := "assets",
    rules := [{ host := "static.example.com",
                http := some [{ path := "/img", backend := { service := none } }] }] }

/-- A cluster with namespace `ns1`: the label query for `app=web` answers `web-2`
before `web-1`. -/
def demoClient : Clientset where
  namespaces := .ok ["ns1"]
  deployments _ := .ok [{ name := "web", replicas := some 2, availableReplicas := 2 }]
  services _ := .ok [webService, externalService]
  pods _ sel :=
    if sel = "" then .ok [web2, cache1, web1]
    else if sel = "app=web" then .ok [web2, web1]
    else .ok []
  configMaps _ := .ok [{ name := "app-config" }, { name := "unused" }]
  ingresses _ := .ok [mainIngress]

/-- The cluster of the examples, with a second and a third namespace; in `ns2` the
unfiltered pod list fails. -/
def flakyClient : Clientset where
  namespaces := .ok ["ns1", "ns2", "ns3"]
  deployments := demoClient.deployments
  services := demoClient.services
  pods ns sel :=
    if ns = "ns2" ∧ sel = "" then .error "pods unavailable" else demoClient.pods ns sel
  configMaps := demoClient.configMaps
  ingresses := demoClient.ingresses

/-- The cluster of the examples, with the ingress `assets` whose path has a resource
backend. -/
def resourceBackendClient : Clientset where
  namespaces := .ok ["ns1", "ns2"]
  deployments := demoClient.deployments
  services := demoClient.services
  pods := demoClient.pods
  configMaps := demoClient.configMaps
  ingresses _ := .ok [mainIngress, assetsIngress]

/-- The cluster of the examples, with a deployment whose replica count is absent. -/
def nilReplicasClient : Clientset where
  namespaces := .ok ["ns1"]
  deployments _ := .ok [{ name := "web", replicas := none, availableReplicas := 0 }]
  services := demoClient.services
  pods := demoClient.pods
  configMaps := demoClient.configMaps
  ingresses := demoClient.ingresses

/-- The cluster of the examples with three namespaces, call by call.  In `ns2` the
ConfigMap list succeeds when `getResources` fetches it (request 15 of the run) and fails
from request 16 on, so it fails when `showConfigMapUsage` fetches it again. -/
def driftingSource : Source where
  namespaces _ := .ok ["ns1", "ns2", "ns3"]
  deployments _ := demoClient.deployments
  services _ := demoClient.services
  pods _ := demoClient.pods
  configMaps n ns :=
    if ns = "ns2" ∧ 16 ≤ n then .error "configmaps gone" else demoClient.configMaps ns
  ingresses _ := demoClient.ingresses

/-- The cluster of the examples with three namespaces and no failing retrieval. -/
def calmSource : Source where
  namespaces _ := .ok ["ns1", "ns2", "ns3"]
  deployments _ := demoClient.deployments
  services _ := demoClient.services
  pods _ := demoClient.pods
  configMaps _ := demoClient.configMaps
  ingresses _ := demoClient.ingresses

/-! ## Lemmas on runs -/

theorem flatMap_single {α β : Type} (f : α → β) (xs : List α) :
    xs.flatMap (fun x => [f x]) = xs.map f := by
  induction xs with
  | nil => rfl
  | cons x xs ih => simp [List.flatMap_cons, ih]

theorem filterMap_map_some {α β γ : Type} (f : α → β) (g : β → Option γ) (h : α → γ)
    (hg : ∀ x, g (f x) = some (h x)) (xs : List α) :
    (xs.map f).filterMap g = xs.map h := by
  induction xs with
  | nil => rfl
  | cons x xs ih => simp [List.filterMap_cons, hg, ih]

theorem bind_eq {α β : Type} (m : Run α) (f : α → Run β) : (m >>= f) = Run.andThen m f := rfl

theorem pure_eq {α : Type} (a : α) : (pure a : Run α) = ⟨[], .ok a⟩ := rfl

theorem andThen_ok {α β : Type} (t : List Event) (a : α) (f : α → Run β) :
    Run.andThen ⟨t, .ok a⟩ f = ⟨t ++ (f a).trace, (f a).res⟩ := rfl

theorem andThen_err {α β : Type} (t : List Event) (e : String) (f : α → Run β) :
    Run.andThen ⟨t, .err e⟩ f = ⟨t, .err e⟩ := rfl

theorem andThen_crash {α β : Type} (t : List Event) (f : α → Run β) :
    Run.andThen ⟨t, .crash⟩ f = ⟨t, .crash⟩ := rfl

theorem emit_eq (l : Line) : emit l = ⟨[.out l], .ok ()⟩ := rfl

theorem request_ok {α : Type} (r : Request) (a : α) :
    request r (.ok a) = ⟨[.call r], .ok a⟩ := rfl

theorem request_error {α : Type} (r : Request) (e : String) :
    request r (.error e : Except String α) = ⟨[.call r], .err e⟩ := rfl

theorem forEach_nil {α : Type} (body : α → Run Unit) : forEach [] body = ⟨[], .ok ()⟩ := rfl

theorem forEach_cons {α : Type} (x : α) (xs : List α) (body : α → Run Unit) :
    forEach (x :: xs) body = Run.andThen (body x) (fun _ => forEach xs body) := rfl

/-- A loop whose every iteration returns normally runs all of them. -/
theorem forEach_ok {α : Type} (xs : List α) (body : α → Run Unit) (t : α → List Event)
    (h : ∀ x ∈ xs, body x = ⟨t x, .ok ()⟩) :
    forEach xs body = ⟨xs.flatMap t, .ok ()⟩ := by
  induction xs with
  | nil => rfl
  | cons x xs ih =>
    rw [forEach_cons, h x (List.mem_cons_self _ _), andThen_ok,
      ih (fun y hy => h y (List.mem_cons_of_mem _ hy))]
    simp

theorem forEach_emit {α : Type} (xs : List α) (f : α → Line) :
    forEach xs (fun x => ⟨[.out (f x)], .ok ()⟩) = ⟨xs.map (fun x => .out (f x)), .ok ()⟩ := by
  induction xs with
  | nil => rfl
  | cons x xs ih => rw [forEach_cons, andThen_ok, ih]; rfl

/-! ## The service views -/

theorem serviceConnections_eq (pf : Platform) (rm : Clientset) (ns : String) (s : Service)
    (h : s.selector ≠ [] → ∃ l, rm.pods ns (pf.formatLabelSelector s.selector) = .ok l) :
    serviceConnections pf rm ns s
      = ⟨connectionLines pf ns s (selectedPods pf rm ns s), .ok ()⟩ := by
  unfold serviceConnections connectionLines selectedPods
  by_cases hs : s.selector = []
  · simp [hs, bind_eq, pure_eq, emit_eq, andThen_ok]
  · obtain ⟨l, hl⟩ := h hs
    have hlen : s.selector.length > 0 := List.length_pos.2 hs
    by_cases hl0 : l = []
    · simp [hs, hlen, hl, hl0, bind_eq, pure_eq, emit_eq, andThen_ok, request_ok]
    · have hllen : l.length > 0 := List.length_pos.2 hl0
      simp [hs, hlen, hl, hl0, hllen, bind_eq, emit_eq, andThen_ok, request_ok,
        forEach_emit]

theorem serviceRelationships_eq (pf : Platform) (rm : Clientset) (ns : String) (s : Service)
    (h : s.selector ≠ [] → ∃ l, rm.pods ns (pf.formatLabelSelector s.selector) = .ok l) :
    serviceRelationships pf rm ns s
      = ⟨relationshipLines pf ns s (selectedPods pf rm ns s), .ok ()⟩ := by
  unfold serviceRelationships relationshipLines selectedPods
  by_cases hs : s.selector = []
  · simp [hs, bind_eq, pure_eq, emit_eq, andThen_ok]
  · obtain ⟨l, hl⟩ := h hs
    have hlen : s.selector.length > 0 := List.length_pos.2 hs
    simp [hs, hlen, hl, bind_eq, emit_eq, andThen_ok, request_ok, forEach_emit]

theorem mapServiceConnections_eq (pf : Platform) (rm : Clientset) (ns : String)
    (svcs : List Service) (hS : rm.services ns = .ok svcs)
    (hQ : ∀ s ∈ svcs, s.selector ≠ [] →
      ∃ l, rm.pods ns (pf.formatLabelSelector s.selector) = .ok l) :
    mapServiceConnections pf rm ns
      = ⟨.out (.connectionsHeader ns) :: .call (.services ns) ::
          svcs.flatMap (fun s => connectionLines pf ns s (selectedPods pf rm ns s)),
        .ok ()⟩ := by
  unfold mapServiceConnections
  simp only [hS, bind_eq, emit_eq, andThen_ok, request_ok]
  rw [forEach_ok svcs _ _ (fun s hs => serviceConnections_eq pf rm ns s (hQ s hs))]
  rfl

/-! ## Lemmas on the loops of `findConfigMapUsage` -/

theorem foldl_append_if {α : Type} (p : α → Bool) (s : String) (xs : List α)
    (init : List String) :
    xs.foldl (fun acc x => if p x then acc ++ [s] else acc) init
      = init ++ List.replicate (xs.filter p).length s := by
  induction xs generalizing init with
  | nil => simp
  | cons x xs ih =>
    simp only [List.foldl_cons, ih, List.filter_cons]
    by_cases h : p x
    · simp [h, List.replicate_succ]
    · simp [h]

theorem foldl_append_flatMap {α : Type} (g : α → List String) (xs : List α)
    (init : List String) :
    xs.foldl (fun acc x => acc ++ g x) init = init ++ xs.flatMap g := by
  induction xs generalizing init with
  | nil => simp
  | cons x xs ih => simp [ih]

theorem findConfigMapUsage_eq (pod : Pod) (n : String) :
    findConfigMapUsage pod n
      = List.replicate (volumeRefs pod n).length "Mounted as volume"
        ++ pod.containers.flatMap (fun c => containerUsage c n) := by
  unfold findConfigMapUsage volumeRefs
  simp only [foldl_append_if, List.nil_append, List.append_assoc]
  exact foldl_append_flatMap (fun c => containerUsage c n) pod.containers _

theorem count_containerUsage_envFrom (cs : List Container) (n : String) :
    (cs.flatMap (fun c => containerUsage c n)).count "Used in envFrom"
      = (cs.flatMap (fun c => c.envFrom.filter
          (fun e => namesConfigMap e.configMapRef n))).length := by
  induction cs with
  | nil => simp
  | cons c cs ih =>
    rw [List.flatMap_cons, List.flatMap_cons, List.count_append, List.length_append, ih]
    simp [containerUsage, List.count_replicate]

theorem count_containerUsage_env (cs : List Container) (n : String) :
    (cs.flatMap (fun c => containerUsage c n)).count "Used in environment variables"
      = (cs.flatMap (fun c => c.env.filter (fun e => envNamesConfigMap e n))).length := by
  induction cs with
  | nil => simp
  | cons c cs ih =>
    rw [List.flatMap_cons, List.flatMap_cons, List.count_append, List.length_append, ih]
    simp [containerUsage, List.count_replicate]

theorem count_containerUsage_volume (cs : List Container) (n : String) :
    (cs.flatMap (fun c => containerUsage c n)).count "Mounted as volume" = 0 := by
  induction cs with
  | nil => simp
  | cons c cs ih =>
    rw [List.flatMap_cons, List.count_append, ih]
    simp [containerUsage, List.count_replicate]

theorem length_containerUsage (cs : List Container) (n : String) :
    (cs.flatMap (fun c => containerUsage c n)).length
      = (cs.flatMap (fun c => c.envFrom.filter
          (fun e => namesConfigMap e.configMapRef n))).length
        + (cs.flatMap (fun c => c.env.filter (fun e => envNamesConfigMap e n))).length := by
  induction cs with
  | nil => simp
  | cons c cs ih =>
    rw [List.flatMap_cons, List.flatMap_cons, List.flatMap_cons, List.length_append,
      List.length_append, List.length_append, ih]
    simp only [containerUsage, List.length_append, List.length_replicate]
    omega

theorem count_volume (pod : Pod) (n : String) :
    (findConfigMapUsage pod n).count "Mounted as volume" = (volumeRefs pod n).length := by
  rw [findConfigMapUsage_eq, List.count_append, count_containerUsage_volume]
  simp

theorem count_envFrom (pod : Pod) (n : String) :
    (findConfigMapUsage pod n).count "Used in envFrom" = (envFromRefs pod n).length := by
  rw [findConfigMapUsage_eq, List.count_append, count_containerUsage_envFrom]
  simp [envFromRefs, List.count_replicate]

theorem count_env (pod : Pod) (n : String) :
    (findConfigMapUsage pod n).count "Used in environment variables"
      = (envRefs pod n).length := by
  rw [findConfigMapUsage_eq, List.count_append, count_containerUsage_env]
  simp [envRefs, List.count_replicate]

theorem mem_containerUsage (cs : List Container) (n s : String)
    (h : s ∈ cs.flatMap (fun c => containerUsage c n)) :
    s = "Used in envFrom" ∨ s = "Used in environment variables" := by
  simp only [List.mem_flatMap, containerUsage, List.mem_append, List.mem_replicate] at h
  obtain ⟨_, _, h | h⟩ := h
  · exact Or.inl h.2
  · exact Or.inr h.2

theorem mem_findConfigMapUsage (pod : Pod) (n s : String) (h : s ∈ findConfigMapUsage pod n) :
    s = "Mounted as volume" ∨ s = "Used in envFrom" ∨ s = "Used in environment variables" := by
  rw [findConfigMapUsage_eq, List.mem_append] at h
  rcases h with h | h
  · exact Or.inl (List.mem_replicate.1 h).2
  · exact Or.inr (mem_containerUsage _ _ _ h)

theorem serviceLayer_eq (pf : Platform) (rm : Clientset) (ns : String)
    (svcs : List Service) (hS : rm.services ns = .ok svcs)
    (hQ : ∀ s ∈ svcs, s.selector ≠ [] →
      ∃ l, rm.pods ns (pf.formatLabelSelector s.selector) = .ok l) :
    serviceLayer pf rm ns
      = ⟨.out .down :: .out .serviceLayer :: .call (.services ns) ::
          svcs.flatMap (fun s => relationshipLines pf ns s (selectedPods pf rm ns s)),
        .ok ()⟩ := by
  unfold serviceLayer
  simp only [hS, bind_eq, emit_eq, andThen_ok, request_ok]
  rw [forEach_ok svcs _ _ (fun s hs => serviceRelationships_eq pf rm ns s (hQ s hs))]
  rfl

/-! ## The ingress layer -/

theorem ingressPath_eq (p : HTTPIngressPath) (h : p.backend.service.isSome = true) :
    (do
      let service ← deref p.backend.service
      emit (.ingressPath (createArrow 4) service.name) : Run Unit)
      = ⟨[.out (.ingressPath (createArrow 4) (targetName p))], .ok ()⟩ := by
  unfold targetName
  cases hs : p.backend.service with
  | none => simp [hs] at h
  | some svc => rfl

theorem ingressRelationships_eq (i : Ingress) (h : namesServices i = true) :
    ingressRelationships i = ⟨ingressLines i, .ok ()⟩ := by
  unfold ingressRelationships ingressLines
  have hp : ∀ r ∈ i.rules, ∀ paths, r.http = some paths →
      ∀ p ∈ paths, p.backend.service.isSome = true := by
    intro r hr paths hpaths p hpm
    simp only [namesServices, ingressPaths, List.all_eq_true, List.mem_flatMap] at h
    exact h p ⟨r, hr, by rw [hpaths]; exact hpm⟩
  rw [bind_eq, emit_eq, andThen_ok]
  rw [forEach_ok i.rules _
    (fun r => (match r.http with
      | some paths => paths
      | none => []).map (fun p => .out (.ingressPath (createArrow 4) (targetName p))))]
  · simp [ingressPaths, List.map_flatMap]
  · intro r hr
    cases hh : r.http with
    | none => rfl
    | some paths =>
      simp only []
      rw [forEach_ok paths _ (fun p => [.out (.ingressPath (createArrow 4) (targetName p))])
        (fun p hpm => ingressPath_eq p (hp r hr paths hh p hpm))]
      rw [flatMap_single]

theorem showResourceRelationships_split (pf : Platform) (rm : Clientset) (ns : String)
    (ings : List Ingress) (hI : rm.ingresses ns = .ok ings)
    (hwf : ∀ i ∈ ings, namesServices i = true) :
    showResourceRelationships pf rm ns
      = ⟨relationshipsPrelude ns ++ ingressLayerLines ings ++ (serviceLayer pf rm ns).trace,
          (serviceLayer pf rm ns).res⟩ := by
  unfold showResourceRelationships serviceLayer ingressLayerLines relationshipsPrelude
  simp only [hI, bind_eq, emit_eq, andThen_ok, request_ok]
  by_cases h0 : ings = []
  · subst h0
    simp [pure_eq, andThen_ok]
  · have hlen : ings.length > 0 := List.length_pos.2 h0
    simp only [hlen, if_true, h0, if_false, andThen_ok]
    rw [forEach_ok ings _ _ (fun i hi => ingressRelationships_eq i (hwf i hi))]
    simp [andThen_ok]

/-! ## The resource listing and the usage view -/

theorem deployment_eq (d : Deployment) (h : hasReplicas d = true) :
    (deref d.replicas).andThen (fun replicas =>
        (⟨[.out (.deployment d.name replicas d.availableReplicas)], .ok ()⟩ : Run Unit))
      = ⟨[deploymentLine d], .ok ()⟩ := by
  unfold deploymentLine
  cases hr : d.replicas with
  | none => simp [hasReplicas, hr] at h
  | some r => rfl

theorem forEach_deployments (ds : List Deployment) (h : ∀ d ∈ ds, hasReplicas d = true) :
    forEach ds (fun d => (deref d.replicas).andThen (fun replicas =>
        (⟨[.out (.deployment d.name replicas d.availableReplicas)], .ok ()⟩ : Run Unit)))
      = ⟨ds.map deploymentLine, .ok ()⟩ := by
  rw [forEach_ok ds _ (fun d => [deploymentLine d]) (fun d hd => deployment_eq d (h d hd)),
    flatMap_single]

theorem getResources_eq (rm : Clientset) (ns : String) (ds : List Deployment)
    (svcs : List Service) (pods : List Pod) (cms : List ConfigMap)
    (hD : rm.deployments ns = .ok ds) (hr : ∀ d ∈ ds, hasReplicas d = true)
    (hS : rm.services ns = .ok svcs) (hP : rm.pods ns "" = .ok pods)
    (hC : rm.configMaps ns = .ok cms) :
    getResources rm ns = ⟨resourceEvents ns ds svcs pods cms, .ok ()⟩ := by
  unfold getResources resourceEvents resourceEventsToPods
  simp only [hD, hS, hP, hC, bind_eq, emit_eq, andThen_ok, request_ok, forEach_emit,
    forEach_deployments ds hr]
  simp

theorem getResources_pods_fail (rm : Clientset) (ns : String) (ds : List Deployment)
    (svcs : List Service) (e : String)
    (hD : rm.deployments ns = .ok ds) (hr : ∀ d ∈ ds, hasReplicas d = true)
    (hS : rm.services ns = .ok svcs) (hP : rm.pods ns "" = .error e) :
    getResources rm ns = ⟨resourceEventsToPods ns ds svcs, .err e⟩ := by
  unfold getResources resourceEventsToPods
  simp only [hD, hS, hP, bind_eq, emit_eq, andThen_ok, andThen_err, request_ok, request_error,
    forEach_emit, forEach_deployments ds hr]
  simp

theorem configMapUsage_eq (pf : Platform) (pods : List Pod) (cm : ConfigMap) :
    configMapUsage pf pods cm
      = ⟨.out (.configMapEntry cm.name) ::
          (if usagePodsOf pods cm.name = [] then []
           else .out .usedByPods ::
             usageEntries (usagePodsOf pods cm.name)
               (sortStrings (pf.rangeOrder ((usagePodsOf pods cm.name).map Prod.fst)))),
        .ok ()⟩ := by
  unfold configMapUsage usageEntries
  by_cases h0 : usagePodsOf pods cm.name = []
  · simp [h0, bind_eq, pure_eq, emit_eq, andThen_ok]
  · have hlen : (usagePodsOf pods cm.name).length > 0 := List.length_pos.2 h0
    simp only [bind_eq, emit_eq, andThen_ok, hlen, if_true, h0, if_false, forEach_emit]
    have hloop : ∀ names : List String,
        forEach names (fun podName =>
          (⟨[.out (.usagePod (createArrow 4) podName)] ++
            (mapGet (usagePodsOf pods cm.name) podName).map (fun u => .out (.usageType u)),
            .ok ()⟩ : Run Unit))
        = ⟨names.flatMap (fun podName => [.out (.usagePod (createArrow 4) podName)] ++
            (mapGet (usagePodsOf pods cm.name) podName).map (fun u => .out (.usageType u))),
            .ok ()⟩ :=
      fun names => forEach_ok names _ _ (fun _ _ => rfl)
    rw [hloop]
    rfl

theorem showConfigMapUsage_eq (pf : Platform) (rm : Clientset) (ns : String)
    (cms : List ConfigMap) (pods : List Pod)
    (hC : rm.configMaps ns = .ok cms) (hP : rm.pods ns "" = .ok pods) :
    showConfigMapUsage pf rm ns
      = ⟨.out (.usageHeader ns) :: .call (.configMaps ns) :: .call (.pods ns "") ::
          cms.flatMap (fun cm => (configMapUsage pf pods cm).trace), .ok ()⟩ := by
  unfold showConfigMapUsage
  simp only [hC, hP, bind_eq, emit_eq, andThen_ok, request_ok]
  rw [forEach_ok cms _ (fun cm => (configMapUsage pf pods cm).trace)
    (fun cm _ => by simp only [configMapUsage_eq])]
  rfl

theorem namesConfigMap_iff (ref : Option ConfigMapRef) (n : String) :
    namesConfigMap ref n = true ↔ ∃ r, ref = some r ∧ r.name = n := by
  cases ref with
  | none => simp [namesConfigMap]
  | some r => simp [namesConfigMap]

theorem envNamesConfigMap_iff (env : EnvVar) (n : String) :
    envNamesConfigMap env n = true ↔
      ∃ src, env.valueFrom = some src ∧ ∃ r, src.configMapKeyRef = some r ∧ r.name = n := by
  unfold envNamesConfigMap
  cases env.valueFrom with
  | none => simp
  | some src => simp [namesConfigMap_iff]

theorem volumeRefs_ne_nil_iff (pod : Pod) (n : String) :
    volumeRefs pod n ≠ [] ↔ ∃ v ∈ pod.volumes, ∃ r, v.configMap = some r ∧ r.name = n := by
  simp only [volumeRefs, ne_eq, List.filter_eq_nil_iff, not_forall, Classical.not_not,
    namesConfigMap_iff, exists_prop]

theorem envFromRefs_ne_nil_iff (pod : Pod) (n : String) :
    envFromRefs pod n ≠ [] ↔
      ∃ c ∈ pod.containers, ∃ e ∈ c.envFrom, ∃ r, e.configMapRef = some r ∧ r.name = n := by
  simp only [envFromRefs, ne_eq, List.flatMap_eq_nil_iff, List.filter_eq_nil_iff, not_forall,
    Classical.not_not, namesConfigMap_iff, exists_prop]

theorem envRefs_ne_nil_iff (pod : Pod) (n : String) :
    envRefs pod n ≠ [] ↔
      ∃ c ∈ pod.containers, ∃ e ∈ c.env, ∃ src, e.valueFrom = some src ∧
        ∃ r, src.configMapKeyRef = some r ∧ r.name = n := by
  simp only [envRefs, ne_eq, List.flatMap_eq_nil_iff, List.filter_eq_nil_iff, not_forall,
    Classical.not_not, envNamesConfigMap_iff, exists_prop]

theorem mem_iff_refs_ne_nil (l : List String) (s : String) {β : Type} (refs : List β)
    (h : l.count s = refs.length) : s ∈ l ↔ refs ≠ [] := by
  rw [← List.count_pos_iff, h, List.length_pos]

/-! ## Claims on `findConfigMapUsage` -/

/-- C1: the result of `findConfigMapUsage` contains "Mounted as volume" exactly when
some volume of the pod has a ConfigMap source of that name, "Used in envFrom" exactly
when some container has an envFrom entry whose ConfigMap reference has that name, and
"Used in environment variables" exactly when some container has an environment
variable whose value-from ConfigMap key reference has that name; it contains no other
string, and it is empty exactly when the pod has none of the three references. -/
theorem findConfigMapUsage_contains (pod : Pod) (n : String) :
    ("Mounted as volume" ∈ findConfigMapUsage pod n ↔
      ∃ v ∈ pod.volumes, ∃ r, v.configMap = some r ∧ r.name = n) ∧
    ("Used in envFrom" ∈ findConfigMapUsage pod n ↔
      ∃ c ∈ pod.containers, ∃ e ∈ c.envFrom, ∃ r, e.configMapRef = some r ∧ r.name = n) ∧
    ("Used in environment variables" ∈ findConfigMapUsage pod n ↔
      ∃ c ∈ pod.containers, ∃ e ∈ c.env, ∃ src, e.valueFrom = some src ∧
        ∃ r, src.configMapKeyRef = some r ∧ r.name = n) ∧
    (∀ s ∈ findConfigMapUsage pod n,
      s = "Mounted as volume" ∨ s = "Used in envFrom" ∨ s = "Used in environment variables") ∧
    (findConfigMapUsage pod n = [] ↔
      (¬ ∃ v ∈ pod.volumes, ∃ r, v.configMap = some r ∧ r.name = n) ∧
      (¬ ∃ c ∈ pod.containers, ∃ e ∈ c.envFrom, ∃ r, e.configMapRef = some r ∧ r.name = n) ∧
      (¬ ∃ c ∈ pod.containers, ∃ e ∈ c.env, ∃ src, e.valueFrom = some src ∧
        ∃ r, src.configMapKeyRef = some r ∧ r.name = n)) := by
  have hv := (mem_iff_refs_ne_nil _ _ _ (count_volume pod n)).trans (volumeRefs_ne_nil_iff pod n)
  have hf := (mem_iff_refs_ne_nil _ _ _ (count_envFrom pod n)).trans
    (envFromRefs_ne_nil_iff pod n)
  have he := (mem_iff_refs_ne_nil _ _ _ (count_env pod n)).trans (envRefs_ne_nil_iff pod n)
  refine ⟨hv, hf, he, fun s hs => mem_findConfigMapUsage pod n s hs, ?_⟩
  rw [← hv, ← hf, ← he]
  constructor
  · intro h
    simp [h]
  · rintro ⟨h1, h2, h3⟩
    rw [List.eq_nil_iff_forall_not_mem]
    intro s hs
    rcases mem_findConfigMapUsage pod n s hs with h | h | h
    · exact h1 (h ▸ hs)
    · exact h2 (h ▸ hs)
    · exact h3 (h ▸ hs)

/-- C2 as stated fails: for a pod with two containers that both use the ConfigMap in
envFrom, `findConfigMapUsage` returns "Used in envFrom" twice. -/
theorem findConfigMapUsage_duplicates :
    findConfigMapUsage twoEnvFromPod "app-config" = ["Used in envFrom", "Used in envFrom"] ∧
    ¬ (findConfigMapUsage twoEnvFromPod "app-config").Nodup := by
  decide

/-- C2 amended: `findConfigMapUsage` appends one entry per reference, so each usage
kind occurs as many times as the pod has references of that kind to the ConfigMap, and
the result is free of duplicates exactly when the pod has at most one reference of each
kind. -/
theorem findConfigMapUsage_count (pod : Pod) (n : String) :
    (findConfigMapUsage pod n).count "Mounted as volume" = (volumeRefs pod n).length ∧
    (findConfigMapUsage pod n).count "Used in envFrom" = (envFromRefs pod n).length ∧
    (findConfigMapUsage pod n).count "Used in environment variables"
      = (envRefs pod n).length ∧
    (findConfigMapUsage pod n).length
      = (volumeRefs pod n).length + (envFromRefs pod n).length + (envRefs pod n).length ∧
    ((findConfigMapUsage pod n).Nodup ↔
      (volumeRefs pod n).length ≤ 1 ∧ (envFromRefs pod n).length ≤ 1 ∧
        (envRefs pod n).length ≤ 1) := by
  refine ⟨count_volume pod n, count_envFrom pod n, count_env pod n, ?_, ?_⟩
  · rw [findConfigMapUsage_eq, List.length_append, List.length_replicate,
      length_containerUsage, envFromRefs, envRefs, Nat.add_assoc]
  · rw [List.nodup_iff_count_le_one]
    constructor
    · intro h
      exact ⟨count_volume pod n ▸ h _, count_envFrom pod n ▸ h _, count_env pod n ▸ h _⟩
    · rintro ⟨h1, h2, h3⟩ s
      by_cases hs : s ∈ findConfigMapUsage pod n
      · rcases mem_findConfigMapUsage pod n s hs with h | h | h
        · rw [h, count_volume]; exact h1
        · rw [h, count_envFrom]; exact h2
        · rw [h, count_env]; exact h3
      · rw [List.count_eq_zero_of_not_mem hs]; exact Nat.zero_le _

/-! ## Claims on the service and ingress views -/

theorem flatMap_congr_mem {α β : Type} (xs : List α) (f g : α → List β)
    (h : ∀ x ∈ xs, f x = g x) : xs.flatMap f = xs.flatMap g := by
  induction xs with
  | nil => rfl
  | cons x xs ih =>
    rw [List.flatMap_cons, List.flatMap_cons, h x (List.mem_cons_self _ _),
      ih (fun y hy => h y (List.mem_cons_of_mem _ hy))]

/-- Both service views, when every retrieval succeeds and `answer s` is what the label
query of service `s` returned. -/
theorem service_views_eq (pf : Platform) (rm : Clientset) (ns : String)
    (svcs : List Service) (ings : List Ingress) (answer : Service → List Pod)
    (hS : rm.services ns = .ok svcs) (hI : rm.ingresses ns = .ok ings)
    (hwf : ∀ i ∈ ings, namesServices i = true)
    (hQ : ∀ s ∈ svcs, s.selector ≠ [] →
      rm.pods ns (pf.formatLabelSelector s.selector) = .ok (answer s)) :
    mapServiceConnections pf rm ns
        = ⟨.out (.connectionsHeader ns) :: .call (.services ns) ::
            svcs.flatMap (fun s => connectionLines pf ns s (answer s)), .ok ()⟩ ∧
    showResourceRelationships pf rm ns
        = ⟨relationshipsPrelude ns ++ ingressLayerLines ings ++
            (.out .down :: .out .serviceLayer :: .call (.services ns) ::
              svcs.flatMap (fun s => relationshipLines pf ns s (answer s))), .ok ()⟩ := by
  have hQ1 : ∀ s ∈ svcs, s.selector ≠ [] →
      ∃ l, rm.pods ns (pf.formatLabelSelector s.selector) = .ok l :=
    fun s hs hne => ⟨answer s, hQ s hs hne⟩
  have hsel : ∀ s ∈ svcs, s.selector ≠ [] → selectedPods pf rm ns s = answer s := by
    intro s hs hne
    simp [selectedPods, hQ s hs hne]
  have h1 : svcs.flatMap (fun s => connectionLines pf ns s (selectedPods pf rm ns s))
      = svcs.flatMap (fun s => connectionLines pf ns s (answer s)) := by
    apply flatMap_congr_mem
    intro s hs
    by_cases hne : s.selector = []
    · simp [connectionLines, hne]
    · rw [hsel s hs hne]
  have h2 : svcs.flatMap (fun s => relationshipLines pf ns s (selectedPods pf rm ns s))
      = svcs.flatMap (fun s => relationshipLines pf ns s (answer s)) := by
    apply flatMap_congr_mem
    intro s hs
    by_cases hne : s.selector = []
    · simp [relationshipLines, hne]
    · rw [hsel s hs hne]
  constructor
  · rw [mapServiceConnections_eq pf rm ns svcs hS hQ1, h1]
  · rw [showResourceRelationships_split pf rm ns ings hI hwf,
      serviceLayer_eq pf rm ns svcs hS hQ1, h2]

/-- C3: with the snapshot source answering the label query of each service by exactly
the pods of the namespace that carry every pair of its selector, the pods listed under
each service by `mapServiceConnections` and by `showResourceRelationships` are exactly
those pods; under a service with an empty selector no pod is listed and no pod query is
issued (the view of that service is its name line alone). -/
theorem service_pods_are_selected (pf : Platform) (rm : Clientset) (ns : String)
    (svcs : List Service) (ings : List Ingress) (pods : List Pod)
    (hS : rm.services ns = .ok svcs) (hI : rm.ingresses ns = .ok ings)
    (hwf : ∀ i ∈ ings, namesServices i = true)
    (hQ : ∀ s ∈ svcs, s.selector ≠ [] →
      ∃ l, rm.pods ns (pf.formatLabelSelector s.selector) = .ok l ∧
        l.Perm (pods.filter (hasLabels s.selector))) :
    ∃ listed : Service → List Pod,
      (∀ s ∈ svcs, (listed s).Perm
        (if s.selector = [] then [] else pods.filter (hasLabels s.selector))) ∧
      (∀ s, s.selector = [] →
        connectionLines pf ns s (listed s) = [.out (.serviceHeader s.name)] ∧
        relationshipLines pf ns s (listed s) = [.out (.serviceEntry s.name)]) ∧
      mapServiceConnections pf rm ns
        = ⟨.out (.connectionsHeader ns) :: .call (.services ns) ::
            svcs.flatMap (fun s => connectionLines pf ns s (listed s)), .ok ()⟩ ∧
      showResourceRelationships pf rm ns
        = ⟨relationshipsPrelude ns ++ ingressLayerLines ings ++
            (.out .down :: .out .serviceLayer :: .call (.services ns) ::
              svcs.flatMap (fun s => relationshipLines pf ns s (listed s))), .ok ()⟩ := by
  refine ⟨fun s => if s.selector = [] then [] else selectedPods pf rm ns s, ?_, ?_, ?_⟩
  · intro s hs
    by_cases hne : s.selector = []
    · simp [hne]
    · obtain ⟨l, hl, hp⟩ := hQ s hs hne
      simpa [hne, selectedPods, hl] using hp
  · intro s hs
    simp [connectionLines, relationshipLines, hs]
  · apply service_views_eq pf rm ns svcs ings _ hS hI hwf
    intro s hs hne
    obtain ⟨l, hl, _⟩ := hQ s hs hne
    simp [hne, selectedPods, hl]

/-- C3 at the cluster of the examples: `web` selects `web-1` and `web-2`, not
`cache-1`; `external` has an empty selector. -/
theorem service_pods_are_selected_witness :
    (demoClient.services "ns1" = .ok [webService, externalService] ∧
      demoClient.ingresses "ns1" = .ok [mainIngress] ∧
      [web2, cache1, web1].filter (hasLabels webService.selector) = [web2, web1]) ∧
    ∃ listed : Service → List Pod,
      (∀ s ∈ [webService, externalService], (listed s).Perm
        (if s.selector = [] then [] else [web2, cache1, web1].filter (hasLabels s.selector))) ∧
      (∀ s, s.selector = [] →
        connectionLines demoPlatform "ns1" s (listed s) = [.out (.serviceHeader s.name)] ∧
        relationshipLines demoPlatform "ns1" s (listed s) = [.out (.serviceEntry s.name)]) ∧
      mapServiceConnections demoPlatform demoClient "ns1"
        = ⟨.out (.connectionsHeader "ns1") :: .call (.services "ns1") ::
            [webService, externalService].flatMap
              (fun s => connectionLines demoPlatform "ns1" s (listed s)), .ok ()⟩ ∧
      showResourceRelationships demoPlatform demoClient "ns1"
        = ⟨relationshipsPrelude "ns1" ++ ingressLayerLines [mainIngress] ++
            (.out .down :: .out .serviceLayer :: .call (.services "ns1") ::
              [webService, externalService].flatMap
                (fun s => relationshipLines demoPlatform "ns1" s (listed s))), .ok ()⟩ :=
  ⟨⟨rfl, rfl, by decide⟩,
    service_pods_are_selected demoPlatform demoClient "ns1" [webService, externalService]
      [mainIngress] [web2, cache1, web1] rfl rfl (by decide)
      (by
        intro s hs hne
        simp only [List.mem_cons, List.mem_singleton, List.not_mem_nil, or_false] at hs
        rcases hs with rfl | rfl
        · exact ⟨[web2, web1], rfl, by decide⟩
        · exact absurd rfl hne)⟩

/-- C5: the ingress layer of `showResourceRelationships` holds, for each ingress in
the order supplied, its name line and one "Service: target" line per path of its HTTP
rules in declared order (`ingressLayerLines`), whatever services the namespace has; the
rest of the run is the service layer, which is computed from the service list and the
pod queries alone, so a target that is no service of the namespace adds no service or
pod line; and the run returns no error when the service list and the pod queries
succeed. -/
theorem ingress_layer_lists_every_path (pf : Platform) (rm : Clientset) (ns : String)
    (ings : List Ingress) (hI : rm.ingresses ns = .ok ings)
    (hwf : ∀ i ∈ ings, namesServices i = true) :
    (showResourceRelationships pf rm ns).trace
        = relationshipsPrelude ns ++ ingressLayerLines ings ++ (serviceLayer pf rm ns).trace ∧
    (showResourceRelationships pf rm ns).res = (serviceLayer pf rm ns).res ∧
    (∀ i ∈ ings, ingressLines i = .out (.ingressEntry i.name) ::
      (ingressPaths i).map (fun p => .out (.ingressPath (createArrow 4) (targetName p)))) ∧
    (∀ svcs (answer : Service → List Pod), rm.services ns = .ok svcs →
      (∀ s ∈ svcs, s.selector ≠ [] →
        rm.pods ns (pf.formatLabelSelector s.selector) = .ok (answer s)) →
      serviceLayer pf rm ns
        = ⟨.out .down :: .out .serviceLayer :: .call (.services ns) ::
            svcs.flatMap (fun s => relationshipLines pf ns s (answer s)), .ok ()⟩ ∧
      (showResourceRelationships pf rm ns).res = .ok ()) := by
  have hsplit := showResourceRelationships_split pf rm ns ings hI hwf
  refine ⟨by rw [hsplit], by rw [hsplit], fun i _ => rfl, ?_⟩
  intro svcs answer hS hQ
  have h := (service_views_eq pf rm ns svcs ings answer hS hI hwf hQ).2
  rw [hsplit] at h
  have htr := congrArg Run.trace h
  have hres := congrArg Run.res h
  simp only [List.append_cancel_left_eq] at htr
  simp only at hres
  refine ⟨?_, by rw [hsplit]; exact hres⟩
  cases hsl : serviceLayer pf rm ns with
  | mk t r =>
    rw [hsl] at htr hres
    simp only at htr hres
    rw [htr, hres]

/-- C5 at the cluster of the examples: ingress `main` routes to `ghost`, which is no
service of the namespace; the line for `ghost` is printed, no service line is, and the
run returns normally. -/
theorem ingress_layer_lists_every_path_witness :
    (demoClient.ingresses "ns1" = .ok [mainIngress] ∧
      ingressLayerLines [mainIngress]
        = [.out .down, .out .ingressLayer, .out (.ingressEntry "main"),
            .out (.ingressPath (createArrow 4) "ghost"), .out .bar] ∧
      linesOf (serviceLayer demoPlatform demoClient "ns1").trace
        = [.down, .serviceLayer, .serviceEntry "web", .servicePod (createArrow 4) "web-2",
            .servicePod (createArrow 4) "web-1", .serviceEntry "external"]) ∧
    (showResourceRelationships demoPlatform demoClient "ns1").trace
        = relationshipsPrelude "ns1" ++ ingressLayerLines [mainIngress] ++
          (serviceLayer demoPlatform demoClient "ns1").trace ∧
    (showResourceRelationships demoPlatform demoClient "ns1").res = .ok () :=
  have h := ingress_layer_lists_every_path demoPlatform demoClient "ns1" [mainIngress] rfl
    (by decide)
  ⟨⟨rfl, by decide, by decide⟩, h.1,
    (h.2.2.2 [webService, externalService] (fun _ => [web2, web1]) rfl (by
      intro s hs hne
      simp only [List.mem_cons, List.mem_singleton, List.not_mem_nil, or_false] at hs
      rcases hs with rfl | rfl
      · rfl
      · exact absurd rfl hne)).2⟩

/-- C8 as stated fails: the label query of the examples answers `web-2` before
`web-1`, and both views list the pods under `web` in that order, which is not
ascending. -/
theorem service_pods_not_sorted :
    demoClient.pods "ns1" (demoPlatform.formatLabelSelector webService.selector)
      = .ok [web2, web1] ∧
    connectedPodNames (mapServiceConnections demoPlatform demoClient "ns1").trace
      = ["web-2", "web-1"] ∧
    servicePodNames (showResourceRelationships demoPlatform demoClient "ns1").trace
      = ["web-2", "web-1"] ∧
    ¬ (connectedPodNames
        (mapServiceConnections demoPlatform demoClient "ns1").trace).Sorted strLE ∧
    ¬ (servicePodNames
        (showResourceRelationships demoPlatform demoClient "ns1").trace).Sorted strLE := by
  refine ⟨rfl, by decide, by decide, ?_, ?_⟩
  · have h : connectedPodNames (mapServiceConnections demoPlatform demoClient "ns1").trace
        = ["web-2", "web-1"] := by decide
    rw [h]
    decide
  · have h : servicePodNames (showResourceRelationships demoPlatform demoClient "ns1").trace
        = ["web-2", "web-1"] := by decide
    rw [h]
    decide

/-- C8 amended: under each service with a non-empty selector, `mapServiceConnections`
and `showResourceRelationships` list the pods in the order in which the snapshot source
returned them for the label query of that service (no sorting is applied), so the
listing is ascending exactly when the source answers in ascending order. -/
theorem service_pods_in_source_order (pf : Platform) (rm : Clientset) (ns : String)
    (svcs : List Service) (ings : List Ingress) (answer : Service → List Pod)
    (hS : rm.services ns = .ok svcs) (hI : rm.ingresses ns = .ok ings)
    (hwf : ∀ i ∈ ings, namesServices i = true)
    (hQ : ∀ s ∈ svcs, s.selector ≠ [] →
      rm.pods ns (pf.formatLabelSelector s.selector) = .ok (answer s)) :
    (∀ s, s.selector ≠ [] →
      connectedPodNames (connectionLines pf ns s (answer s)) = (answer s).map (·.name) ∧
      servicePodNames (relationshipLines pf ns s (answer s)) = (answer s).map (·.name)) ∧
    (mapServiceConnections pf rm ns).trace
        = .out (.connectionsHeader ns) :: .call (.services ns) ::
            svcs.flatMap (fun s => connectionLines pf ns s (answer s)) ∧
    (showResourceRelationships pf rm ns).trace
        = relationshipsPrelude ns ++ ingressLayerLines ings ++
            (.out .down :: .out .serviceLayer :: .call (.services ns) ::
              svcs.flatMap (fun s => relationshipLines pf ns s (answer s))) := by
  have h := service_views_eq pf rm ns svcs ings answer hS hI hwf hQ
  refine ⟨?_, by rw [h.1], by rw [h.2]⟩
  intro s hne
  constructor
  · by_cases hl : answer s = []
    · simp [connectionLines, connectedPodNames, hne, hl]
    · simp only [connectionLines, connectedPodNames, hne, hl, if_false, List.cons_append,
        List.nil_append, List.filterMap_cons]
      apply filterMap_map_some
      intro x
      rfl
  · simp only [relationshipLines, servicePodNames, hne, if_false, List.filterMap_cons]
    apply filterMap_map_some
    intro x
    rfl

/-- C8 amended, at the cluster of the examples. -/
theorem service_pods_in_source_order_witness :
    (demoClient.services "ns1" = .ok [webService, externalService] ∧
      demoClient.ingresses "ns1" = .ok [mainIngress]) ∧
    connectedPodNames (connectionLines demoPlatform "ns1" webService [web2, web1])
      = [web2, web1].map (·.name) ∧
    (mapServiceConnections demoPlatform demoClient "ns1").trace
        = .out (.connectionsHeader "ns1") :: .call (.services "ns1") ::
            [webService, externalService].flatMap
              (fun s => connectionLines demoPlatform "ns1" s [web2, web1]) :=
  have h := service_pods_in_source_order demoPlatform demoClient "ns1"
    [webService, externalService] [mainIngress] (fun _ => [web2, web1]) rfl rfl (by decide)
    (by
      intro s hs hne
      simp only [List.mem_cons, List.mem_singleton, List.not_mem_nil, or_false] at hs
      rcases hs with rfl | rfl
      · rfl
      · exact absurd rfl hne)
  ⟨⟨rfl, rfl⟩, (h.1 webService (by decide)).1, h.2.1⟩

/-! ## Claims on the ConfigMap usage view -/

theorem strLT_of_strLE_of_ne {a b : String} (h : strLE a b) (hne : a ≠ b) : strLT a b :=
  lt_of_le_of_ne h (fun heq => hne (String.toList_inj.1 heq))

theorem mapSet_fresh (m : List (String × List String)) (k : String) (v : List String)
    (h : k ∉ m.map Prod.fst) : mapSet m k v = m ++ [(k, v)] := by
  unfold mapSet
  have : m.any (fun kv => kv.1 == k) = false := by
    rw [Bool.eq_false_iff]
    intro hany
    rw [List.any_eq_true] at hany
    obtain ⟨kv, hkv, heq⟩ := hany
    exact h (List.mem_map.2 ⟨kv, hkv, by simpa using heq⟩)
  simp [this]

theorem usagePods_fold (pods : List Pod) (n : String) (acc : List (String × List String))
    (hnd : (pods.map (·.name)).Nodup)
    (hdis : ∀ p ∈ pods, p.name ∉ acc.map Prod.fst) :
    pods.foldl (fun usagePods pod =>
        let usageTypes := findConfigMapUsage pod n
        if usageTypes.length > 0 then mapSet usagePods pod.name usageTypes else usagePods) acc
      = acc ++ (pods.filter (usesConfigMap n)).map (fun p => (p.name, findConfigMapUsage p n)) := by
  induction pods generalizing acc with
  | nil => simp
  | cons p ps ih =>
    rw [List.map_cons, List.nodup_cons] at hnd
    rw [List.foldl_cons]
    by_cases hu : (findConfigMapUsage p n).length > 0
    · have huse : usesConfigMap n p = true := by simp [usesConfigMap, hu]
      simp only [hu, if_true]
      rw [mapSet_fresh acc p.name _ (hdis p (List.mem_cons_self _ _)), ih _ hnd.2]
      · simp [List.filter_cons, huse]
      · intro q hq hmem
        rw [List.map_append, List.mem_append] at hmem
        rcases hmem with hmem | hmem
        · exact hdis q (List.mem_cons_of_mem _ hq) hmem
        · simp only [List.map_cons, List.map_nil, List.mem_singleton] at hmem
          exact hnd.1 (hmem ▸ List.mem_map_of_mem (·.name) hq)
    · have huse : usesConfigMap n p = false := by simp [usesConfigMap, hu]
      simp only [hu, if_false]
      rw [ih _ hnd.2 (fun q hq => hdis q (List.mem_cons_of_mem _ hq))]
      simp [List.filter_cons, huse]

theorem usagePodsOf_eq (pods : List Pod) (n : String) (hnd : (pods.map (·.name)).Nodup) :
    usagePodsOf pods n
      = (pods.filter (usesConfigMap n)).map (fun p => (p.name, findConfigMapUsage p n)) := by
  unfold usagePodsOf
  rw [usagePods_fold pods n [] hnd (fun _ _ => by simp)]
  simp

theorem lookup_of_nodup (ps : List Pod) (f : Pod → List String) (p : Pod) (hp : p ∈ ps)
    (hnd : (ps.map (·.name)).Nodup) :
    (ps.map (fun q => (q.name, f q))).lookup p.name = some (f p) := by
  induction ps with
  | nil => simp at hp
  | cons q qs ih =>
    rw [List.map_cons, List.nodup_cons] at hnd
    rw [List.map_cons]
    rcases List.mem_cons.1 hp with rfl | hmem
    · simp [List.lookup_cons]
    · have hne : p.name ≠ q.name := by
        intro heq
        exact hnd.1 (heq ▸ List.mem_map_of_mem (·.name) hmem)
      rw [List.lookup_cons]
      have : (p.name == q.name) = false := by simpa using hne
      rw [this]
      exact ih hmem hnd.2

theorem usersOf_perm (pods : List Pod) (n : String) :
    (usersOf pods n).Perm (pods.filter (usesConfigMap n)) :=
  List.perm_insertionSort _ _

theorem usersOf_names_nodup (pods : List Pod) (n : String)
    (hnd : (pods.map (·.name)).Nodup) : ((usersOf pods n).map (·.name)).Nodup := by
  have hsub : ((pods.filter (usesConfigMap n)).map (·.name)).Nodup :=
    hnd.sublist ((List.filter_sublist pods).map _)
  exact ((usersOf_perm pods n).map _).nodup_iff.2 hsub

theorem usersOf_names_sorted (pods : List Pod) (n : String) :
    ((usersOf pods n).map (·.name)).Sorted strLE := by
  have h : (usersOf pods n).Sorted (fun a b => strLE a.name b.name) :=
    List.sorted_insertionSort _ _
  exact List.pairwise_map.2 h

theorem sorted_keys_eq (pf : Platform) (pods : List Pod) (n : String)
    (hnd : (pods.map (·.name)).Nodup) :
    sortStrings (pf.rangeOrder ((usagePodsOf pods n).map Prod.fst))
      = (usersOf pods n).map (·.name) := by
  apply List.eq_of_perm_of_sorted (r := strLE) _ (List.sorted_insertionSort _ _)
    (usersOf_names_sorted pods n)
  have hkeys : (usagePodsOf pods n).map Prod.fst
      = (pods.filter (usesConfigMap n)).map (·.name) := by
    rw [usagePodsOf_eq pods n hnd, List.map_map]
    rfl
  exact ((List.perm_insertionSort _ _).trans (pf.rangeOrder_perm _)).trans
    (hkeys ▸ ((usersOf_perm pods n).map _).symm)

theorem usageEntries_eq (pods : List Pod) (n : String) (hnd : (pods.map (·.name)).Nodup) :
    usageEntries (usagePodsOf pods n) ((usersOf pods n).map (·.name))
      = (usersOf pods n).flatMap (usageEntry n) := by
  unfold usageEntries
  rw [List.flatMap_map]
  apply flatMap_congr_mem
  intro p hp
  have hp2 : p ∈ pods.filter (usesConfigMap n) := (usersOf_perm pods n).mem_iff.1 hp
  have hsub : ((pods.filter (usesConfigMap n)).map (·.name)).Nodup :=
    hnd.sublist ((List.filter_sublist pods).map _)
  simp only [usageEntry, mapGet, usagePodsOf_eq pods n hnd,
    lookup_of_nodup _ (fun q => findConfigMapUsage q n) p hp2 hsub]

theorem configMapUsage_users (pf : Platform) (pods : List Pod) (cm : ConfigMap)
    (hnd : (pods.map (·.name)).Nodup) :
    configMapUsage pf pods cm
      = ⟨.out (.configMapEntry cm.name) ::
          (if usersOf pods cm.name = [] then []
           else .out .usedByPods :: (usersOf pods cm.name).flatMap (usageEntry cm.name)),
        .ok ()⟩ := by
  rw [configMapUsage_eq, sorted_keys_eq pf pods cm.name hnd, usageEntries_eq pods cm.name hnd]
  have hiff : usagePodsOf pods cm.name = [] ↔ usersOf pods cm.name = [] := by
    rw [usagePodsOf_eq pods cm.name hnd, List.map_eq_nil_iff]
    constructor
    · intro h
      exact List.Perm.eq_nil (h ▸ usersOf_perm pods cm.name)
    · intro h
      exact List.Perm.eq_nil (h ▸ (usersOf_perm pods cm.name).symm)
  by_cases h0 : usersOf pods cm.name = []
  · simp [h0, hiff.2 h0]
  · simp [h0, mt hiff.1 h0]

/-- C4: for pods with pairwise distinct names, the pod entries `showConfigMapUsage`
prints under each ConfigMap are the pods for which `findConfigMapUsage` returns a
non-empty result (`usersOf`), each once, in strictly ascending order of name, each entry
followed by one bullet per element of that pod's result (`usageEntry`); when no pod
uses the ConfigMap, neither the "Used by pods" header nor any pod entry is printed. -/
theorem usage_view_lists_users (pf : Platform) (rm : Clientset) (ns : String)
    (cms : List ConfigMap) (pods : List Pod)
    (hC : rm.configMaps ns = .ok cms) (hP : rm.pods ns "" = .ok pods)
    (hnd : (pods.map (·.name)).Nodup) :
    (∀ cm : ConfigMap,
      (usersOf pods cm.name).Perm
        (pods.filter (fun p => decide (findConfigMapUsage p cm.name ≠ []))) ∧
      ((usersOf pods cm.name).map (·.name)).Sorted strLT ∧
      (∀ p, usageEntry cm.name p = .out (.usagePod (createArrow 4) p.name) ::
        (findConfigMapUsage p cm.name).map (fun u => .out (.usageType u)))) ∧
    showConfigMapUsage pf rm ns
      = ⟨.out (.usageHeader ns) :: .call (.configMaps ns) :: .call (.pods ns "") ::
          cms.flatMap (fun cm => .out (.configMapEntry cm.name) ::
            (if usersOf pods cm.name = [] then []
             else .out .usedByPods :: (usersOf pods cm.name).flatMap (usageEntry cm.name))),
        .ok ()⟩ := by
  refine ⟨fun cm => ⟨?_, ?_, fun _ => rfl⟩, ?_⟩
  · have hfun : (fun p => decide (findConfigMapUsage p cm.name ≠ []))
        = usesConfigMap cm.name := by
      funext p
      simp [usesConfigMap, List.length_pos]
    rw [hfun]
    exact usersOf_perm pods cm.name
  · have h1 := usersOf_names_sorted pods cm.name
    have h2 := usersOf_names_nodup pods cm.name hnd
    exact (List.Pairwise.and h1 h2).imp (fun h => strLT_of_strLE_of_ne h.1 h.2)
  · rw [showConfigMapUsage_eq pf rm ns cms pods hC hP]
    simp only [configMapUsage_users pf pods _ hnd]

/-- C4 at the cluster of the examples: under `app-config` the view lists `web-1` (two
bullets) then `web-2` (one bullet), under `unused` nothing. -/
theorem usage_view_lists_users_witness :
    (demoClient.configMaps "ns1" = .ok [{ name := "app-config" }, { name := "unused" }] ∧
      demoClient.pods "ns1" "" = .ok [web2, cache1, web1] ∧
      ([web2, cache1, web1].map (·.name)).Nodup ∧
      usersOf [web2, cache1, web1] "app-config" = [web1, web2] ∧
      usersOf [web2, cache1, web1] "unused" = []) ∧
    showConfigMapUsage demoPlatform demoClient "ns1"
      = ⟨.out (.usageHeader "ns1") :: .call (.configMaps "ns1") :: .call (.pods "ns1" "") ::
          [({ name := "app-config" } : ConfigMap), { name := "unused" }].flatMap
            (fun cm => .out (.configMapEntry cm.name) ::
              (if usersOf [web2, cache1, web1] cm.name = [] then []
               else .out .usedByPods ::
                (usersOf [web2, cache1, web1] cm.name).flatMap (usageEntry cm.name))),
        .ok ()⟩ :=
  ⟨⟨rfl, rfl, by decide, by decide, by decide⟩,
    (usage_view_lists_users demoPlatform demoClient "ns1" _ [web2, cache1, web1] rfl rfl
      (by decide)).2⟩

/-! ## Runs that do not crash, and where runs fail -/

theorem noCrash_emit (l : Line) : NoCrash (emit l) :=
  ⟨by simp [emit]⟩

theorem noCrash_request {α : Type} (r : Request) (answer : Except String α) :
    NoCrash (request r answer) :=
  ⟨by cases answer <;> simp [request]⟩

theorem request_res_ok {α : Type} {r : Request} {answer : Except String α} {a : α}
    (h : (request r answer).res = .ok a) : answer = .ok a := by
  cases answer with
  | error e => simp [request] at h
  | ok b =>
    simp only [request, Res.ok.injEq] at h
    rw [h]

theorem noCrash_andThen {α β : Type} (m : Run α) (f : α → Run β) (hm : NoCrash m)
    (hf : ∀ a, m.res = .ok a → NoCrash (f a)) : NoCrash (m.andThen f) := by
  constructor
  unfold Run.andThen
  cases hr : m.res with
  | ok a => exact (hf a hr).res_ne
  | err e => simp
  | crash => exact absurd hr hm.res_ne

theorem noCrash_forEach {α : Type} (xs : List α) (body : α → Run Unit)
    (h : ∀ x ∈ xs, NoCrash (body x)) : NoCrash (forEach xs body) := by
  induction xs with
  | nil => exact ⟨by simp [forEach]⟩
  | cons x xs ih =>
    rw [forEach_cons]
    exact noCrash_andThen _ _ (h x (List.mem_cons_self _ _))
      (fun _ _ => ih (fun y hy => h y (List.mem_cons_of_mem _ hy)))

theorem noCrash_of_eq_ok {α : Type} (m : Run α) (t : List Event) (a : α)
    (h : m = ⟨t, .ok a⟩) : NoCrash m := by
  rw [h]
  exact ⟨by simp⟩

theorem noCrash_ite {α : Type} (c : Prop) [Decidable c] (a b : Run α)
    (ha : NoCrash a) (hb : NoCrash b) : NoCrash (if c then a else b) := by
  split
  · exact ha
  · exact hb

theorem failsAtCall_emit (l : Line) : FailsAtCall (emit l) :=
  ⟨fun e h => by simp [emit] at h⟩

theorem failsAtCall_request {α : Type} (r : Request) (answer : Except String α) :
    FailsAtCall (request r answer) :=
  ⟨fun _ _ => ⟨[], r, rfl⟩⟩

theorem failsAtCall_andThen {α β : Type} (m : Run α) (f : α → Run β) (hm : FailsAtCall m)
    (hf : ∀ a, m.res = .ok a → FailsAtCall (f a)) : FailsAtCall (m.andThen f) := by
  constructor
  intro e h
  unfold Run.andThen at *
  cases hr : m.res with
  | ok a =>
    simp only [hr] at h ⊢
    obtain ⟨pre, r, hpre⟩ := (hf a hr).at_call e h
    exact ⟨m.trace ++ pre, r, by rw [hpre, List.append_assoc]⟩
  | err e2 =>
    simp only [hr] at h ⊢
    exact hm.at_call e2 hr
  | crash => simp [hr] at h

theorem failsAtCall_forEach {α : Type} (xs : List α) (body : α → Run Unit)
    (h : ∀ x ∈ xs, FailsAtCall (body x)) : FailsAtCall (forEach xs body) := by
  induction xs with
  | nil => exact ⟨fun e he => by simp [forEach] at he⟩
  | cons x xs ih =>
    rw [forEach_cons]
    exact failsAtCall_andThen _ _ (h x (List.mem_cons_self _ _))
      (fun _ _ => ih (fun y hy => h y (List.mem_cons_of_mem _ hy)))

theorem failsAtCall_of_no_err {α : Type} (m : Run α) (h : ∀ e, m.res ≠ .err e) :
    FailsAtCall m :=
  ⟨fun e he => absurd he (h e)⟩

theorem failsAtCall_of_eq_ok {α : Type} (m : Run α) (t : List Event) (a : α)
    (h : m = ⟨t, .ok a⟩) : FailsAtCall m := by
  apply failsAtCall_of_no_err
  intro e
  rw [h]
  simp

theorem failsAtCall_ite {α : Type} (c : Prop) [Decidable c] (a b : Run α)
    (ha : FailsAtCall a) (hb : FailsAtCall b) : FailsAtCall (if c then a else b) := by
  split
  · exact ha
  · exact hb

theorem failsAtCall_deref {α : Type} (o : Option α) : FailsAtCall (deref o) := by
  apply failsAtCall_of_no_err
  cases o <;> simp [deref]

theorem noCrash_deref {α : Type} (o : Option α) (h : o.isSome = true) : NoCrash (deref o) := by
  cases o with
  | none => simp at h
  | some a => exact ⟨by simp [deref]⟩

theorem failsAtCall_pure {α : Type} (a : α) : FailsAtCall (pure a : Run α) :=
  failsAtCall_of_eq_ok _ [] a rfl

theorem noCrash_pure {α : Type} (a : α) : NoCrash (pure a : Run α) :=
  noCrash_of_eq_ok _ [] a rfl

/-! ## The namespace loop -/

theorem orSkip_ok (step : Run Unit) (report : String → Line) (rest : Run Unit)
    (h : step.res = .ok ()) :
    orSkip step report rest = ⟨step.trace ++ rest.trace, rest.res⟩ := by
  unfold orSkip
  rw [h]

theorem orSkip_err (step : Run Unit) (report : String → Line) (rest : Run Unit) (e : String)
    (h : step.res = .err e) :
    orSkip step report rest = ⟨step.trace ++ [.out (report e)], .ok ()⟩ := by
  unfold orSkip
  rw [h]

theorem orSkip_res_ok (step : Run Unit) (report : String → Line) (rest : Run Unit)
    (hs : NoCrash step) (hr : rest.res = .ok ()) : (orSkip step report rest).res = .ok () := by
  unfold orSkip
  cases h : step.res with
  | ok _ => exact hr
  | err e => rfl
  | crash => exact absurd h hs.res_ne

theorem processNamespace_eq (pf : Platform) (rm : Clientset) (ns : String) :
    processNamespace pf rm ns
      = ⟨namespaceBanner ns ++ (namespaceViews pf rm ns).trace, (namespaceViews pf rm ns).res⟩ :=
  rfl

theorem run_eta {α : Type} (m : Run α) (a : α) (h : m.res = .ok a) : m = ⟨m.trace, .ok a⟩ := by
  cases m with
  | mk t r =>
    simp only at h
    rw [h]

/-! ## The program call by call: combinators -/

theorem live_bind_eq {α β : Type} (m : Live α) (f : α → Live β) :
    (m >>= f) = Live.andThen m f := rfl

theorem live_pure_eq {α : Type} (a : α) : (pure a : Live α) = Live.lift ⟨[], .ok a⟩ := rfl

theorem failsAtCall_ingressRelationships (i : Ingress) :
    FailsAtCall (ingressRelationships i) := by
  unfold ingressRelationships
  simp only [bind_eq]
  repeat' first
    | apply failsAtCall_andThen
    | apply failsAtCall_emit
    | apply failsAtCall_forEach
    | apply failsAtCall_deref
    | apply failsAtCall_pure
    | intro _ _
    | split

theorem stops_lift {α : Type} (r : Run α) (h : FailsAtCall r) : Live.StopsAtCall (Live.lift r) :=
  ⟨fun _ => h⟩

theorem stops_emit (l : Line) : Live.StopsAtCall (Live.emit l) :=
  stops_lift _ (failsAtCall_emit l)

theorem stops_deref {α : Type} (o : Option α) : Live.StopsAtCall (Live.deref o) :=
  stops_lift _ (failsAtCall_deref o)

theorem stops_request {α : Type} (r : Request) (answer : Source → Except String α) :
    Live.StopsAtCall (Live.request r answer) :=
  ⟨fun _ => failsAtCall_request _ _⟩

theorem stops_andThen {α β : Type} (m : Live α) (f : α → Live β) (hm : Live.StopsAtCall m)
    (hf : ∀ a, Live.StopsAtCall (f a)) : Live.StopsAtCall (Live.andThen m f) :=
  ⟨fun src => failsAtCall_andThen _ _ (hm.stops src) (fun a _ => (hf a).stops _)⟩

theorem stops_forEach {α : Type} (xs : List α) (body : α → Live Unit)
    (h : ∀ x ∈ xs, Live.StopsAtCall (body x)) : Live.StopsAtCall (Live.forEach xs body) := by
  induction xs with
  | nil => exact stops_lift _ (failsAtCall_of_eq_ok _ [] () rfl)
  | cons x xs ih =>
    exact stops_andThen _ _ (h x (List.mem_cons_self _ _))
      (fun _ => ih (fun y hy => h y (List.mem_cons_of_mem _ hy)))

theorem stops_ite {α : Type} (c : Prop) [Decidable c] (a b : Live α)
    (ha : Live.StopsAtCall a) (hb : Live.StopsAtCall b) :
    Live.StopsAtCall (if c then a else b) := by
  split
  · exact ha
  · exact hb

theorem stops_getResources (ns : String) : Live.StopsAtCall (Live.getResources ns) := by
  unfold Live.getResources
  simp only [live_bind_eq]
  repeat' first
    | apply stops_andThen
    | apply stops_emit
    | apply stops_request
    | apply stops_forEach
    | apply stops_deref
    | intro _ _
    | intro _

theorem stops_mapServiceConnections (pf : Platform) (ns : String) :
    Live.StopsAtCall (Live.mapServiceConnections pf ns) := by
  unfold Live.mapServiceConnections Live.serviceConnections
  simp only [live_bind_eq, live_pure_eq]
  repeat' first
    | apply stops_andThen
    | apply stops_emit
    | apply stops_request
    | apply stops_forEach
    | apply stops_ite
    | exact stops_lift _ (failsAtCall_of_eq_ok _ [] _ rfl)
    | intro _ _
    | intro _

theorem stops_showResourceRelationships (pf : Platform) (ns : String) :
    Live.StopsAtCall (Live.showResourceRelationships pf ns) := by
  unfold Live.showResourceRelationships Live.serviceRelationships
  simp only [live_bind_eq, live_pure_eq]
  repeat' first
    | apply stops_andThen
    | apply stops_emit
    | apply stops_request
    | apply stops_forEach
    | apply stops_ite
    | exact stops_lift _ (failsAtCall_ingressRelationships _)
    | exact stops_lift _ (failsAtCall_of_eq_ok _ [] _ rfl)
    | intro _ _
    | intro _

theorem stops_showConfigMapUsage (pf : Platform) (ns : String) :
    Live.StopsAtCall (Live.showConfigMapUsage pf ns) := by
  unfold Live.showConfigMapUsage
  simp only [live_bind_eq]
  repeat' first
    | apply stops_andThen
    | apply stops_emit
    | apply stops_request
    | apply stops_forEach
    | exact stops_lift _ (failsAtCall_of_eq_ok _ _ _ (configMapUsage_eq _ _ _))
    | intro _ _
    | intro _

theorem stops_namespaceSteps (pf : Platform) (ns : String) :
    Live.StopsAtCall (Live.namespaceSteps pf ns) := by
  unfold Live.namespaceSteps
  simp only [live_bind_eq]
  exact stops_andThen _ _ (stops_getResources ns) (fun _ =>
    stops_andThen _ _ (stops_mapServiceConnections pf ns) (fun _ =>
      stops_andThen _ _ (stops_showResourceRelationships pf ns) (fun _ =>
        stops_showConfigMapUsage pf ns)))

theorem agreeOn_after (ns : String) (s1 s2 : Source) (h : AgreeOn ns s1 s2) (n : Nat) :
    AgreeOn ns (s1.after n) (s2.after n) :=
  fun k => h (k + n)

theorem local_lift (ns : String) {α : Type} (r : Run α) :
    Live.Local (AgreeOn ns) (Live.lift r) :=
  ⟨fun _ _ _ => rfl⟩

theorem local_emit (ns : String) (l : Line) : Live.Local (AgreeOn ns) (Live.emit l) :=
  local_lift ns _

theorem local_deref (ns : String) {α : Type} (o : Option α) :
    Live.Local (AgreeOn ns) (Live.deref o) :=
  local_lift ns _

theorem local_request (ns : String) {α : Type} (r : Request)
    (answer : Source → Except String α)
    (h : ∀ s1 s2, AgreeOn ns s1 s2 → answer s1 = answer s2) :
    Live.Local (AgreeOn ns) (Live.request r answer) :=
  ⟨fun s1 s2 hs => by unfold Live.request; rw [h s1 s2 hs]⟩

theorem local_deployments (ns : String) :
    Live.Local (AgreeOn ns) (Live.request (.deployments ns) (fun src => src.deployments 0 ns)) :=
  local_request ns _ _ (fun _ _ h => (h 0).1)

theorem local_services (ns : String) :
    Live.Local (AgreeOn ns) (Live.request (.services ns) (fun src => src.services 0 ns)) :=
  local_request ns _ _ (fun _ _ h => (h 0).2.1)

theorem local_pods (ns sel : String) :
    Live.Local (AgreeOn ns) (Live.request (.pods ns sel) (fun src => src.pods 0 ns sel)) :=
  local_request ns _ _ (fun _ _ h => (h 0).2.2.1 sel)

theorem local_configMaps (ns : String) :
    Live.Local (AgreeOn ns) (Live.request (.configMaps ns) (fun src => src.configMaps 0 ns)) :=
  local_request ns _ _ (fun _ _ h => (h 0).2.2.2.1)

theorem local_ingresses (ns : String) :
    Live.Local (AgreeOn ns) (Live.request (.ingresses ns) (fun src => src.ingresses 0 ns)) :=
  local_request ns _ _ (fun _ _ h => (h 0).2.2.2.2)

theorem local_andThen (ns : String) {α β : Type} (m : Live α) (f : α → Live β)
    (hm : Live.Local (AgreeOn ns) m) (hf : ∀ a, Live.Local (AgreeOn ns) (f a)) :
    Live.Local (AgreeOn ns) (Live.andThen m f) := by
  constructor
  intro s1 s2 h
  unfold Live.andThen
  rw [hm.same s1 s2 h]
  congr 1
  funext a
  exact (hf a).same _ _ (agreeOn_after ns s1 s2 h _)

theorem local_forEach (ns : String) {α : Type} (xs : List α) (body : α → Live Unit)
    (h : ∀ x ∈ xs, Live.Local (AgreeOn ns) (body x)) :
    Live.Local (AgreeOn ns) (Live.forEach xs body) := by
  induction xs with
  | nil => exact local_lift ns _
  | cons x xs ih =>
    exact local_andThen ns _ _ (h x (List.mem_cons_self _ _))
      (fun _ => ih (fun y hy => h y (List.mem_cons_of_mem _ hy)))

theorem local_ite (ns : String) {α : Type} (c : Prop) [Decidable c] (a b : Live α)
    (ha : Live.Local (AgreeOn ns) a) (hb : Live.Local (AgreeOn ns) b) :
    Live.Local (AgreeOn ns) (if c then a else b) := by
  split
  · exact ha
  · exact hb

theorem local_orSkip (ns : String) (step : Live Unit) (report : String → Line)
    (rest : Live Unit) (hs : Live.Local (AgreeOn ns) step)
    (hr : Live.Local (AgreeOn ns) rest) :
    Live.Local (AgreeOn ns) (Live.orSkip step report rest) := by
  constructor
  intro s1 s2 h
  unfold Live.orSkip
  rw [hs.same s1 s2 h, hr.same _ _ (agreeOn_after ns s1 s2 h _)]

theorem local_getResources (ns : String) :
    Live.Local (AgreeOn ns) (Live.getResources ns) := by
  unfold Live.getResources
  simp only [live_bind_eq]
  repeat' first
    | apply local_andThen
    | apply local_emit
    | apply local_deployments
    | apply local_services
    | apply local_pods
    | apply local_configMaps
    | apply local_forEach
    | apply local_deref
    | intro _ _
    | intro _

theorem local_mapServiceConnections (pf : Platform) (ns : String) :
    Live.Local (AgreeOn ns) (Live.mapServiceConnections pf ns) := by
  unfold Live.mapServiceConnections Live.serviceConnections
  simp only [live_bind_eq, live_pure_eq]
  repeat' first
    | apply local_andThen
    | apply local_emit
    | apply local_services
    | apply local_pods
    | apply local_forEach
    | apply local_ite
    | apply local_lift
    | intro _ _
    | intro _

theorem local_showResourceRelationships (pf : Platform) (ns : String) :
    Live.Local (AgreeOn ns) (Live.showResourceRelationships pf ns) := by
  unfold Live.showResourceRelationships Live.serviceRelationships
  simp only [live_bind_eq, live_pure_eq]
  repeat' first
    | apply local_andThen
    | apply local_emit
    | apply local_ingresses
    | apply local_services
    | apply local_pods
    | apply local_forEach
    | apply local_ite
    | apply local_lift
    | intro _ _
    | intro _

theorem local_showConfigMapUsage (pf : Platform) (ns : String) :
    Live.Local (AgreeOn ns) (Live.showConfigMapUsage pf ns) := by
  unfold Live.showConfigMapUsage
  simp only [live_bind_eq]
  repeat' first
    | apply local_andThen
    | apply local_emit
    | apply local_configMaps
    | apply local_pods
    | apply local_forEach
    | apply local_lift
    | intro _ _
    | intro _

theorem local_processNamespace (pf : Platform) (ns : String) :
    Live.Local (AgreeOn ns) (Live.processNamespace pf ns) := by
  unfold Live.processNamespace Live.namespaceViews
  simp only [live_bind_eq]
  repeat' first
    | apply local_andThen
    | apply local_orSkip
    | apply local_emit
    | exact local_getResources ns
    | exact local_mapServiceConnections pf ns
    | exact local_showResourceRelationships pf ns
    | exact local_showConfigMapUsage pf ns
    | intro _

theorem nilFree_after (ns : String) (src : Source) (h : NilFree ns src) (n : Nat) :
    NilFree ns (src.after n) :=
  ⟨fun k ds hk => h.1 (k + n) ds hk, fun k ings hk => h.2 (k + n) ings hk⟩

theorem safe_lift (ns : String) {α : Type} (r : Run α) (h : NoCrash r) :
    Live.Safe (NilFree ns) (Live.lift r) :=
  ⟨fun _ _ => h⟩

theorem safe_emit (ns : String) (l : Line) : Live.Safe (NilFree ns) (Live.emit l) :=
  safe_lift ns _ (noCrash_emit l)

theorem safe_request (ns : String) {α : Type} (r : Request)
    (answer : Source → Except String α) : Live.Safe (NilFree ns) (Live.request r answer) :=
  ⟨fun _ _ => noCrash_request _ _⟩

theorem safe_andThen_dep (ns : String) {α β : Type} (m : Live α) (f : α → Live β)
    (hm : Live.Safe (NilFree ns) m)
    (hf : ∀ src a, NilFree ns src → (m src).res = .ok a → Live.Safe (NilFree ns) (f a)) :
    Live.Safe (NilFree ns) (Live.andThen m f) :=
  ⟨fun src h => noCrash_andThen _ _ (hm.safe src h)
    (fun a ha => (hf src a h ha).safe _ (nilFree_after ns src h _))⟩

theorem safe_andThen (ns : String) {α β : Type} (m : Live α) (f : α → Live β)
    (hm : Live.Safe (NilFree ns) m) (hf : ∀ a, Live.Safe (NilFree ns) (f a)) :
    Live.Safe (NilFree ns) (Live.andThen m f) :=
  safe_andThen_dep ns m f hm (fun _ a _ _ => hf a)

theorem safe_forEach (ns : String) {α : Type} (xs : List α) (body : α → Live Unit)
    (h : ∀ x ∈ xs, Live.Safe (NilFree ns) (body x)) :
    Live.Safe (NilFree ns) (Live.forEach xs body) := by
  induction xs with
  | nil => exact safe_lift ns _ (noCrash_of_eq_ok _ [] () rfl)
  | cons x xs ih =>
    exact safe_andThen ns _ _ (h x (List.mem_cons_self _ _))
      (fun _ => ih (fun y hy => h y (List.mem_cons_of_mem _ hy)))

theorem safe_ite (ns : String) {α : Type} (c : Prop) [Decidable c] (a b : Live α)
    (ha : Live.Safe (NilFree ns) a) (hb : Live.Safe (NilFree ns) b) :
    Live.Safe (NilFree ns) (if c then a else b) := by
  split
  · exact ha
  · exact hb

theorem safe_getResources (ns : String) : Live.Safe (NilFree ns) (Live.getResources ns) := by
  unfold Live.getResources
  simp only [live_bind_eq]
  apply safe_andThen ns _ _ (safe_emit ns _)
  intro _
  apply safe_andThen ns _ _ (safe_emit ns _)
  intro _
  apply safe_andThen_dep ns _ _ (safe_request ns _ _)
  intro src ds hsrc hds
  have hrep := hsrc.1 0 ds (request_res_ok hds)
  apply safe_andThen
  · apply safe_forEach
    intro d hd
    exact safe_andThen ns _ _ (safe_lift ns _ (noCrash_deref _ (hrep d hd)))
      (fun _ => safe_emit ns _)
  · intro _
    repeat' first
      | apply safe_andThen
      | apply safe_emit
      | apply safe_request
      | apply safe_forEach
      | intro _ _
      | intro _

theorem safe_mapServiceConnections (pf : Platform) (ns : String) :
    Live.Safe (NilFree ns) (Live.mapServiceConnections pf ns) := by
  unfold Live.mapServiceConnections Live.serviceConnections
  simp only [live_bind_eq, live_pure_eq]
  repeat' first
    | apply safe_andThen
    | apply safe_emit
    | apply safe_request
    | apply safe_forEach
    | apply safe_ite
    | exact safe_lift ns _ (noCrash_of_eq_ok _ [] _ rfl)
    | intro _ _
    | intro _

theorem safe_showResourceRelationships (pf : Platform) (ns : String) :
    Live.Safe (NilFree ns) (Live.showResourceRelationships pf ns) := by
  unfold Live.showResourceRelationships Live.serviceRelationships
  simp only [live_bind_eq, live_pure_eq]
  apply safe_andThen ns _ _ (safe_emit ns _)
  intro _
  apply safe_andThen ns _ _ (safe_emit ns _)
  intro _
  apply safe_andThen ns _ _ (safe_emit ns _)
  intro _
  apply safe_andThen_dep ns _ _ (safe_request ns _ _)
  intro src ings hsrc hings
  have hwf := hsrc.2 0 ings (request_res_ok hings)
  have hloop : Live.Safe (NilFree ns)
      (Live.forEach ings (fun ingress => Live.lift (ingressRelationships ingress))) :=
    safe_forEach ns ings _ (fun i hi =>
      safe_lift ns _ (noCrash_of_eq_ok _ _ _ (ingressRelationships_eq i (hwf i hi))))
  repeat' first
    | exact hloop
    | apply safe_andThen
    | apply safe_emit
    | apply safe_request
    | apply safe_forEach
    | apply safe_ite
    | exact safe_lift ns _ (noCrash_of_eq_ok _ [] _ rfl)
    | intro _ _
    | intro _

theorem safe_showConfigMapUsage (pf : Platform) (ns : String) :
    Live.Safe (NilFree ns) (Live.showConfigMapUsage pf ns) := by
  unfold Live.showConfigMapUsage
  simp only [live_bind_eq]
  repeat' first
    | apply safe_andThen
    | apply safe_emit
    | apply safe_request
    | apply safe_forEach
    | exact safe_lift ns _ (noCrash_of_eq_ok _ _ _ (configMapUsage_eq _ _ _))
    | intro _ _
    | intro _

/-! ## The namespace loop, call by call -/

theorem live_processNamespace_eq (pf : Platform) (ns : String) (src : Source) :
    Live.processNamespace pf ns src
      = ⟨namespaceBanner ns ++ (Live.namespaceViews pf ns src).trace,
          (Live.namespaceViews pf ns src).res⟩ :=
  rfl

theorem live_namespaceViews_res_ok (pf : Platform) (ns : String) (src : Source)
    (h : NilFree ns src) : (Live.namespaceViews pf ns src).res = .ok () := by
  unfold Live.namespaceViews Live.orSkip
  apply orSkip_res_ok _ _ _ ((safe_getResources ns).safe src h)
  apply orSkip_res_ok _ _ _
    ((safe_mapServiceConnections pf ns).safe _ (nilFree_after ns _ h _))
  apply orSkip_res_ok _ _ _
    ((safe_showResourceRelationships pf ns).safe _
      (nilFree_after ns _ (nilFree_after ns _ h _) _))
  apply orSkip_res_ok _ _ _
    ((safe_showConfigMapUsage pf ns).safe _
      (nilFree_after ns _ (nilFree_after ns _ (nilFree_after ns _ h _) _) _))
  rfl

theorem live_processNamespace_res_ok (pf : Platform) (ns : String) (src : Source)
    (h : NilFree ns src) : (Live.processNamespace pf ns src).res = .ok () := by
  rw [live_processNamespace_eq]
  exact live_namespaceViews_res_ok pf ns src h

theorem live_forEach_namespaces (pf : Platform) (nss : List String) (src : Source)
    (h : ∀ ns ∈ nss, NilFree ns src) :
    Live.forEach nss (Live.processNamespace pf) src
      = ⟨Live.namespaceOutputs pf nss src, .ok ()⟩ := by
  induction nss generalizing src with
  | nil => rfl
  | cons ns rest ih =>
    have hok := live_processNamespace_res_ok pf ns src (h ns (List.mem_cons_self _ _))
    have hrest := ih (src.after (ticks (Live.processNamespace pf ns src).trace))
      (fun n hn => nilFree_after n src (h n (List.mem_cons_of_mem _ hn)) _)
    show Run.andThen (Live.processNamespace pf ns src) _ = _
    unfold Run.andThen
    rw [hok]
    simp only [hrest, Live.namespaceOutputs]

theorem live_main_eq (pf : Platform) (src : Source) (nss : List String)
    (hN : src.namespaces 0 = .ok nss) (hwf : ∀ ns ∈ nss, NilFree ns src) :
    Live.main pf (.ok src)
      = ⟨[.out .banner, .out .separator, .call .namespaces] ++
          Live.namespaceOutputs pf nss (src.after 1) ++ [.out .complete], .success⟩ := by
  unfold Live.main
  simp only [hN]
  rw [live_forEach_namespaces pf nss (src.after 1)
    (fun ns hns => nilFree_after ns src (hwf ns hns) 1)]

/-! ## Claims on the namespace loop -/

/-- C6 as stated fails: in namespace `ns2` the pod list fails after the deployment and
service lists succeeded, and the output for `ns2` holds the deployment line and the
service line printed before the failure, followed by the logged error. -/
theorem failed_namespace_keeps_earlier_lines :
    flakyClient.deployments "ns2"
      = .ok [{ name := "web", replicas := some 2, availableReplicas := 2 }] ∧
    flakyClient.pods "ns2" "" = .error "pods unavailable" ∧
    (processNamespace demoPlatform flakyClient "ns2").trace
      = [.out .separator, .out (.analyzing "ns2"), .out .separator,
          .out (.resourcesHeader "ns2"), .out .deploymentsHeader, .call (.deployments "ns2"),
          .out (.deployment "web" 2 2),
          .out .servicesHeader, .call (.services "ns2"),
          .out (.service "web" "ClusterIP" "10.0.0.1" []),
          .out (.service "external" "ExternalName" "" []),
          .out .podsHeader, .call (.pods "ns2" ""),
          .out (.resourcesError "pods unavailable")] ∧
    Event.out (.deployment "web" 2 2) ∈ (processNamespace demoPlatform flakyClient "ns2").trace ∧
    Event.out (.service "web" "ClusterIP" "10.0.0.1" [])
      ∈ (processNamespace demoPlatform flakyClient "ns2").trace :=
  ⟨rfl, rfl, by decide, by decide, by decide⟩

/-- C9 fails on the code: an ingress path with a resource backend (no service) makes
`showResourceRelationships` dereference a nil pointer, and a deployment without a
replica count makes `getResources` do so; the run stops there, without the completion
line and with a failure status, and later namespaces are not processed.  An ingress
rule with no HTTP section is skipped without harm. -/
theorem nil_pointer_stops_the_run :
    (showResourceRelationships demoPlatform resourceBackendClient "ns1").res = .crash ∧
    (main demoPlatform (.ok resourceBackendClient)).exit = .crashed ∧
    Event.out .complete ∉ (main demoPlatform (.ok resourceBackendClient)).trace ∧
    Event.out (.analyzing "ns2") ∉ (main demoPlatform (.ok resourceBackendClient)).trace ∧
    (getResources nilReplicasClient "ns1").res = .crash ∧
    (main demoPlatform (.ok nilReplicasClient)).exit = .crashed ∧
    (ingressRelationships mainIngress).res = .ok () := by
  decide

/-! ## The requests issued for a namespace -/

theorem requestsOf_append (a b : List Event) :
    requestsOf (a ++ b) = requestsOf a ++ requestsOf b := by
  simp [requestsOf, List.filterMap_append]

theorem requestsOf_cons_out (l : Line) (t : List Event) :
    requestsOf (.out l :: t) = requestsOf t := rfl

theorem requestsOf_cons_call (r : Request) (t : List Event) :
    requestsOf (.call r :: t) = r :: requestsOf t := rfl

theorem requestsOf_nil : requestsOf [] = [] := rfl

theorem requestsOf_map_out {α : Type} (f : α → Line) (xs : List α) :
    requestsOf (xs.map (fun x => .out (f x))) = [] := by
  induction xs with
  | nil => rfl
  | cons x xs ih => rw [List.map_cons, requestsOf_cons_out, ih]

theorem requestsOf_flatMap_nil {α : Type} (f : α → List Event) (xs : List α)
    (h : ∀ x ∈ xs, requestsOf (f x) = []) : requestsOf (xs.flatMap f) = [] := by
  induction xs with
  | nil => rfl
  | cons x xs ih =>
    rw [List.flatMap_cons, requestsOf_append, h x (List.mem_cons_self _ _),
      ih (fun y hy => h y (List.mem_cons_of_mem _ hy))]
    rfl

theorem requestsOf_connectionLines (pf : Platform) (ns : String) (answer : Service → List Pod)
    (svcs : List Service) :
    requestsOf (svcs.flatMap (fun s => connectionLines pf ns s (answer s)))
      = labelQueries pf ns svcs := by
  induction svcs with
  | nil => rfl
  | cons s svcs ih =>
    rw [List.flatMap_cons, requestsOf_append, ih]
    unfold labelQueries connectionLines
    by_cases hs : s.selector = []
    · simp [hs, requestsOf_cons_out, requestsOf_nil, List.filter_cons]
    · by_cases hl : answer s = []
      · simp [hs, hl, requestsOf_cons_out, requestsOf_cons_call, requestsOf_nil,
          List.filter_cons]
      · simp [hs, hl, requestsOf_cons_out, requestsOf_cons_call, requestsOf_map_out,
          List.filter_cons]

theorem requestsOf_relationshipLines (pf : Platform) (ns : String)
    (answer : Service → List Pod) (svcs : List Service) :
    requestsOf (svcs.flatMap (fun s => relationshipLines pf ns s (answer s)))
      = labelQueries pf ns svcs := by
  induction svcs with
  | nil => rfl
  | cons s svcs ih =>
    rw [List.flatMap_cons, requestsOf_append, ih]
    unfold labelQueries relationshipLines
    by_cases hs : s.selector = []
    · simp [hs, requestsOf_cons_out, requestsOf_nil, List.filter_cons]
    · simp [hs, requestsOf_cons_out, requestsOf_cons_call, requestsOf_map_out,
        List.filter_cons]

theorem requestsOf_ingressLayerLines (ings : List Ingress) :
    requestsOf (ingressLayerLines ings) = [] := by
  unfold ingressLayerLines
  split
  · rfl
  · simp only [List.cons_append, List.nil_append, requestsOf_cons_out, requestsOf_append]
    rw [requestsOf_flatMap_nil]
    · rfl
    · intro i _
      unfold ingressLines
      rw [requestsOf_cons_out, requestsOf_map_out]

theorem requestsOf_usageEntries (m : List (String × List String)) (names : List String) :
    requestsOf (usageEntries m names) = [] := by
  unfold usageEntries
  apply requestsOf_flatMap_nil
  intro k _
  rw [requestsOf_cons_out, requestsOf_map_out]

theorem requestsOf_configMapUsage (pf : Platform) (pods : List Pod) (cm : ConfigMap) :
    requestsOf (configMapUsage pf pods cm).trace = [] := by
  rw [configMapUsage_eq]
  simp only [requestsOf_cons_out]
  split
  · rfl
  · rw [requestsOf_cons_out, requestsOf_usageEntries]

theorem requestsOf_resourceEvents (ns : String) (ds : List Deployment) (svcs : List Service)
    (pods : List Pod) (cms : List ConfigMap) :
    requestsOf (resourceEvents ns ds svcs pods cms)
      = [.deployments ns, .services ns, .pods ns "", .configMaps ns] := by
  unfold resourceEvents resourceEventsToPods deploymentLine
  simp only [requestsOf_append, List.cons_append, List.nil_append, requestsOf_cons_out,
    requestsOf_cons_call, requestsOf_map_out, requestsOf_nil, List.append_nil]

theorem countP_labelQueries_pods (pf : Platform) (ns : String) (svcs : List Service) :
    (labelQueries pf ns svcs).countP (fun r => r.kind = .pods)
      = (labelQueries pf ns svcs).length := by
  rw [List.countP_eq_length]
  intro r hr
  simp only [labelQueries, List.mem_map] at hr
  obtain ⟨s, _, rfl⟩ := hr
  simp [Request.kind]

theorem countP_labelQueries_other (pf : Platform) (ns : String) (svcs : List Service)
    (k : Kind) (hk : k ≠ .pods) :
    (labelQueries pf ns svcs).countP (fun r => r.kind = k) = 0 := by
  rw [List.countP_eq_zero]
  intro r hr
  simp only [labelQueries, List.mem_map] at hr
  obtain ⟨s, _, rfl⟩ := hr
  simpa [Request.kind] using hk.symm

theorem processNamespace_requests (pf : Platform) (rm : Clientset) (ns : String)
    (ds : List Deployment) (svcs : List Service) (pods : List Pod) (cms : List ConfigMap)
    (ings : List Ingress) (answer : Service → List Pod)
    (hD : rm.deployments ns = .ok ds) (hr : ∀ d ∈ ds, hasReplicas d = true)
    (hS : rm.services ns = .ok svcs) (hP : rm.pods ns "" = .ok pods)
    (hC : rm.configMaps ns = .ok cms) (hI : rm.ingresses ns = .ok ings)
    (hwf : ∀ i ∈ ings, namesServices i = true)
    (hQ : ∀ s ∈ svcs, s.selector ≠ [] →
      rm.pods ns (pf.formatLabelSelector s.selector) = .ok (answer s)) :
    (processNamespace pf rm ns).res = .ok () ∧
    requestsOf (processNamespace pf rm ns).trace
      = [.deployments ns, .services ns, .pods ns "", .configMaps ns, .services ns] ++
          labelQueries pf ns svcs ++ [.ingresses ns, .services ns] ++
          labelQueries pf ns svcs ++ [.configMaps ns, .pods ns ""] := by
  have hg := getResources_eq rm ns ds svcs pods cms hD hr hS hP hC
  have hv := service_views_eq pf rm ns svcs ings answer hS hI hwf hQ
  have hu := showConfigMapUsage_eq pf rm ns cms pods hC hP
  rw [processNamespace_eq]
  unfold namespaceViews
  rw [orSkip_ok _ _ _ (by rw [hg]), orSkip_ok _ _ _ (by rw [hv.1]),
    orSkip_ok _ _ _ (by rw [hv.2]), orSkip_ok _ _ _ (by rw [hu]), hg, hv.1, hv.2, hu]
  refine ⟨rfl, ?_⟩
  simp only [namespaceBanner, relationshipsPrelude, emit, requestsOf_append,
    List.cons_append, List.nil_append, requestsOf_cons_out, requestsOf_cons_call,
    requestsOf_resourceEvents, requestsOf_connectionLines, requestsOf_relationshipLines,
    requestsOf_ingressLayerLines, requestsOf_nil, List.append_nil, List.append_assoc]
  rw [requestsOf_flatMap_nil (fun cm => (configMapUsage pf pods cm).trace) cms
    (fun cm _ => requestsOf_configMapUsage pf pods cm)]

/-- C10 as stated fails: processing namespace `ns1` of the examples, where every
retrieval succeeds, lists the services three times, the ConfigMaps twice and the pods
four times. -/
theorem retrievals_are_repeated :
    (processNamespace demoPlatform demoClient "ns1").res = .ok () ∧
    requestsOf (processNamespace demoPlatform demoClient "ns1").trace
      = [.deployments "ns1", .services "ns1", .pods "ns1" "", .configMaps "ns1",
          .services "ns1", .pods "ns1" "app=web",
          .ingresses "ns1", .services "ns1", .pods "ns1" "app=web",
          .configMaps "ns1", .pods "ns1" ""] ∧
    countKind .services (processNamespace demoPlatform demoClient "ns1").trace = 3 ∧
    countKind .configMaps (processNamespace demoPlatform demoClient "ns1").trace = 2 ∧
    countKind .pods (processNamespace demoPlatform demoClient "ns1").trace = 4 ∧
    ¬ (∀ k, countKind k (processNamespace demoPlatform demoClient "ns1").trace ≤ 1) := by
  refine ⟨by decide, by decide, by decide, by decide, by decide, ?_⟩
  intro h
  exact absurd (h .services) (by decide)

/-- C10 amended: while one namespace is processed with every retrieval succeeding, the
deployments and the ingresses are listed once, the ConfigMaps twice (`getResources`,
`showConfigMapUsage`), the services three times (once per view that shows them), and
the pods twice without a selector (`getResources`, `showConfigMapUsage`) plus twice per
service with a non-empty selector (one label query in `mapServiceConnections`, one in
`showResourceRelationships`); the requests are issued in the order given. -/
theorem retrievals_per_namespace (pf : Platform) (rm : Clientset) (ns : String)
    (ds : List Deployment) (svcs : List Service) (pods : List Pod) (cms : List ConfigMap)
    (ings : List Ingress) (answer : Service → List Pod)
    (hD : rm.deployments ns = .ok ds) (hr : ∀ d ∈ ds, hasReplicas d = true)
    (hS : rm.services ns = .ok svcs) (hP : rm.pods ns "" = .ok pods)
    (hC : rm.configMaps ns = .ok cms) (hI : rm.ingresses ns = .ok ings)
    (hwf : ∀ i ∈ ings, namesServices i = true)
    (hQ : ∀ s ∈ svcs, s.selector ≠ [] →
      rm.pods ns (pf.formatLabelSelector s.selector) = .ok (answer s)) :
    requestsOf (processNamespace pf rm ns).trace
      = [.deployments ns, .services ns, .pods ns "", .configMaps ns, .services ns] ++
          labelQueries pf ns svcs ++ [.ingresses ns, .services ns] ++
          labelQueries pf ns svcs ++ [.configMaps ns, .pods ns ""] ∧
    countKind .deployments (processNamespace pf rm ns).trace = 1 ∧
    countKind .ingresses (processNamespace pf rm ns).trace = 1 ∧
    countKind .configMaps (processNamespace pf rm ns).trace = 2 ∧
    countKind .services (processNamespace pf rm ns).trace = 3 ∧
    countKind .pods (processNamespace pf rm ns).trace
      = 2 + 2 * (svcs.filter (fun s => decide (s.selector ≠ []))).length ∧
    countKind .namespaces (processNamespace pf rm ns).trace = 0 := by
  have h := (processNamespace_requests pf rm ns ds svcs pods cms ings answer hD hr hS hP hC hI
    hwf hQ).2
  have hlen : (labelQueries pf ns svcs).length
      = (svcs.filter (fun s => decide (s.selector ≠ []))).length := by
    simp [labelQueries]
  refine ⟨h, ?_, ?_, ?_, ?_, ?_, ?_⟩ <;>
    simp only [countKind, h, List.countP_append, List.countP_cons, List.countP_nil,
      countP_labelQueries_pods, hlen,
      countP_labelQueries_other pf ns svcs _ (by decide : Kind.deployments ≠ Kind.pods),
      countP_labelQueries_other pf ns svcs _ (by decide : Kind.ingresses ≠ Kind.pods),
      countP_labelQueries_other pf ns svcs _ (by decide : Kind.configMaps ≠ Kind.pods),
      countP_labelQueries_other pf ns svcs _ (by decide : Kind.services ≠ Kind.pods),
      countP_labelQueries_other pf ns svcs _ (by decide : Kind.namespaces ≠ Kind.pods)] <;>
    (simp [Request.kind]; try omega)

/-- C10 amended, in namespace `ns1` of the examples. -/
theorem retrievals_per_namespace_witness :
    (demoClient.deployments "ns1"
        = .ok [{ name := "web", replicas := some 2, availableReplicas := 2 }] ∧
      demoClient.services "ns1" = .ok [webService, externalService] ∧
      demoClient.pods "ns1" "" = .ok [web2, cache1, web1] ∧
      demoClient.ingresses "ns1" = .ok [mainIngress]) ∧
    countKind .deployments (processNamespace demoPlatform demoClient "ns1").trace = 1 ∧
    countKind .ingresses (processNamespace demoPlatform demoClient "ns1").trace = 1 ∧
    countKind .configMaps (processNamespace demoPlatform demoClient "ns1").trace = 2 ∧
    countKind .services (processNamespace demoPlatform demoClient "ns1").trace = 3 ∧
    countKind .pods (processNamespace demoPlatform demoClient "ns1").trace
      = 2 + 2 * ([webService, externalService].filter
          (fun s => decide (s.selector ≠ []))).length :=
  have h := retrievals_per_namespace demoPlatform demoClient "ns1"
    [{ name := "web", replicas := some 2, availableReplicas := 2 }]
    [webService, externalService] [web2, cache1, web1]
    [{ name := "app-config" }, { name := "unused" }] [mainIngress] (fun _ => [web2, web1])
    rfl (by decide) rfl rfl rfl rfl (by decide)
    (by
      intro s hs hne
      simp only [List.mem_cons, List.mem_singleton, List.not_mem_nil, or_false] at hs
      rcases hs with rfl | rfl
      · rfl
      · exact absurd rfl hne)
  ⟨⟨rfl, rfl, rfl, rfl⟩, h.2.1, h.2.2.1, h.2.2.2.1, h.2.2.2.2.1, h.2.2.2.2.2.1⟩

/-! ## Closed forms call by call -/

theorem after_zero (src : Source) : src.after 0 = src := rfl

theorem ticks_nil : ticks [] = 0 := rfl

theorem ticks_cons_out (l : Line) (t : List Event) : ticks (.out l :: t) = ticks t := rfl

theorem ticks_cons_call (r : Request) (t : List Event) : ticks (.call r :: t) = ticks t + 1 :=
  rfl

theorem ticks_append (a b : List Event) : ticks (a ++ b) = ticks a + ticks b := by
  simp [ticks, requestsOf_append]

theorem ticks_map_out {α : Type} (f : α → Line) (xs : List α) :
    ticks (xs.map (fun x => .out (f x))) = 0 := by
  simp [ticks, requestsOf_map_out]

theorem ticks_map_deploymentLine (ds : List Deployment) : ticks (ds.map deploymentLine) = 0 :=
  ticks_map_out
    (fun d : Deployment => Line.deployment d.name (d.replicas.getD 0) d.availableReplicas) ds

theorem live_andThen_apply {α β : Type} (m : Live α) (f : α → Live β) (src : Source) :
    Live.andThen m f src
      = Run.andThen (m src) (fun a => f a (src.after (ticks (m src).trace))) := rfl

theorem live_emit_apply (l : Line) (src : Source) : Live.emit l src = ⟨[.out l], .ok ()⟩ := rfl

theorem live_request_apply {α : Type} (r : Request) (answer : Source → Except String α)
    (src : Source) : Live.request r answer src = request r (answer src) := rfl

theorem live_forEach_quiet {α : Type} (xs : List α) (body : α → Live Unit)
    (t : α → List Event) (ht : ∀ x ∈ xs, ticks (t x) = 0)
    (h : ∀ x ∈ xs, ∀ src, body x src = ⟨t x, .ok ()⟩) (src : Source) :
    Live.forEach xs body src = ⟨xs.flatMap t, .ok ()⟩ := by
  induction xs with
  | nil => rfl
  | cons x xs ih =>
    show Run.andThen (body x src) _ = _
    rw [h x (List.mem_cons_self _ _) src, andThen_ok]
    simp only [ht x (List.mem_cons_self _ _), after_zero]
    rw [ih (fun y hy => ht y (List.mem_cons_of_mem _ hy))
      (fun y hy => h y (List.mem_cons_of_mem _ hy))]
    rfl

theorem live_forEach_emit {α : Type} (xs : List α) (f : α → Line) (src : Source) :
    Live.forEach xs (fun x => Live.emit (f x)) src
      = ⟨xs.map (fun x => .out (f x)), .ok ()⟩ := by
  have h := live_forEach_quiet xs (fun x => Live.emit (f x)) (fun x => [.out (f x)])
    (fun _ _ => rfl) (fun _ _ _ => rfl) src
  rw [h, flatMap_single]

theorem live_forEach_deployments (ds : List Deployment) (h : ∀ d ∈ ds, hasReplicas d = true)
    (src : Source) :
    Live.forEach ds (fun d => Live.andThen (Live.deref d.replicas) (fun replicas =>
        Live.emit (.deployment d.name replicas d.availableReplicas))) src
      = ⟨ds.map deploymentLine, .ok ()⟩ := by
  have hq := live_forEach_quiet ds (fun d => Live.andThen (Live.deref d.replicas)
      (fun replicas => Live.emit (.deployment d.name replicas d.availableReplicas)))
    (fun d => [deploymentLine d]) (fun _ _ => rfl)
    (fun d hd _ => deployment_eq d (h d hd)) src
  rw [hq, flatMap_single]

theorem live_getResources_pods_fail (ns : String) (src : Source) (ds : List Deployment)
    (svcs : List Service) (e : String)
    (hD : src.deployments 0 ns = .ok ds) (hr : ∀ d ∈ ds, hasReplicas d = true)
    (hS : src.services 1 ns = .ok svcs) (hP : src.pods 2 ns "" = .error e) :
    Live.getResources ns src = ⟨resourceEventsToPods ns ds svcs, .err e⟩ := by
  have hS2 : (src.after 1).services 0 ns = .ok svcs := hS
  have hP2 : ((src.after 1).after 1).pods 0 ns "" = .error e := hP
  unfold Live.getResources resourceEventsToPods
  simp only [live_bind_eq, live_andThen_apply, live_emit_apply, live_request_apply,
    live_forEach_deployments ds hr, live_forEach_emit, andThen_ok, andThen_err, request_ok,
    request_error, ticks_nil, ticks_cons_out, ticks_cons_call, ticks_append, ticks_map_out,
    ticks_map_deploymentLine, after_zero, hD, hS2, hP2, Nat.zero_add]
  simp


/-! ## A cluster whose answers do not change

Against the source `Clientset.steady rm` the program call by call is the program as
defined on the clientset `rm`. -/

theorem steady_after (rm : Clientset) (n : Nat) : rm.steady.after n = rm.steady := rfl

theorem live_andThen_steady {α β : Type} (m : Live α) (f : α → Live β) (rm : Clientset) :
    Live.andThen m f rm.steady = Run.andThen (m rm.steady) (fun a => f a rm.steady) := rfl

theorem live_forEach_steady {α : Type} (xs : List α) (body : α → Live Unit)
    (rm : Clientset) :
    Live.forEach xs body rm.steady = forEach xs (fun x => body x rm.steady) := by
  induction xs with
  | nil => rfl
  | cons x xs ih =>
    show Run.andThen (body x rm.steady) (fun _ => Live.forEach xs body rm.steady) = _
    rw [ih]
    rfl

theorem live_orSkip_steady (step : Live Unit) (report : String → Line) (rest : Live Unit)
    (rm : Clientset) :
    Live.orSkip step report rest rm.steady
      = orSkip (step rm.steady) report (rest rm.steady) := rfl

theorem live_ite_apply {α : Type} (c : Prop) [Decidable c] (a b : Live α) (src : Source) :
    (if c then a else b) src = if c then a src else b src := by
  split <;> rfl

theorem live_lift_apply {α : Type} (r : Run α) (src : Source) : Live.lift r src = r := rfl

theorem live_deref_apply {α : Type} (o : Option α) (src : Source) :
    Live.deref o src = deref o := rfl

theorem live_emit_eq_emit (l : Line) (src : Source) : Live.emit l src = emit l := rfl

theorem getResources_steady (rm : Clientset) (ns : String) :
    Live.getResources ns rm.steady = getResources rm ns := by
  unfold Live.getResources getResources
  simp only [live_bind_eq, bind_eq, live_andThen_steady, live_forEach_steady,
    live_emit_eq_emit, live_request_apply, live_deref_apply]
  rfl

theorem serviceConnections_steady (pf : Platform) (rm : Clientset) (ns : String)
    (s : Service) :
    Live.serviceConnections pf ns s rm.steady = serviceConnections pf rm ns s := by
  unfold Live.serviceConnections serviceConnections
  simp only [live_bind_eq, bind_eq, live_pure_eq, pure_eq, live_andThen_steady,
    live_forEach_steady, live_emit_eq_emit, live_request_apply, live_ite_apply,
    live_lift_apply]
  rfl

theorem mapServiceConnections_steady (pf : Platform) (rm : Clientset) (ns : String) :
    Live.mapServiceConnections pf ns rm.steady = mapServiceConnections pf rm ns := by
  unfold Live.mapServiceConnections mapServiceConnections
  simp only [live_bind_eq, bind_eq, live_andThen_steady, live_forEach_steady,
    live_emit_eq_emit, live_request_apply, serviceConnections_steady]
  rfl

theorem serviceRelationships_steady (pf : Platform) (rm : Clientset) (ns : String)
    (s : Service) :
    Live.serviceRelationships pf ns s rm.steady = serviceRelationships pf rm ns s := by
  unfold Live.serviceRelationships serviceRelationships
  simp only [live_bind_eq, bind_eq, live_pure_eq, pure_eq, live_andThen_steady,
    live_forEach_steady, live_emit_eq_emit, live_request_apply, live_ite_apply,
    live_lift_apply]
  rfl

theorem showResourceRelationships_steady (pf : Platform) (rm : Clientset) (ns : String) :
    Live.showResourceRelationships pf ns rm.steady = showResourceRelationships pf rm ns := by
  unfold Live.showResourceRelationships showResourceRelationships
  simp only [live_bind_eq, bind_eq, live_pure_eq, pure_eq, live_andThen_steady,
    live_forEach_steady, live_emit_eq_emit, live_request_apply, live_ite_apply,
    live_lift_apply, serviceRelationships_steady]
  rfl

theorem showConfigMapUsage_steady (pf : Platform) (rm : Clientset) (ns : String) :
    Live.showConfigMapUsage pf ns rm.steady = showConfigMapUsage pf rm ns := by
  unfold Live.showConfigMapUsage showConfigMapUsage
  simp only [live_bind_eq, bind_eq, live_andThen_steady, live_forEach_steady,
    live_emit_eq_emit, live_request_apply, live_lift_apply]
  rfl

theorem processNamespace_steady (pf : Platform) (rm : Clientset) (ns : String) :
    Live.processNamespace pf ns rm.steady = processNamespace pf rm ns := by
  unfold Live.processNamespace processNamespace Live.namespaceViews namespaceViews
  simp only [live_bind_eq, bind_eq, live_andThen_steady, live_orSkip_steady,
    live_emit_eq_emit, getResources_steady, mapServiceConnections_steady,
    showResourceRelationships_steady, showConfigMapUsage_steady]

theorem main_steady (pf : Platform) (rm : Clientset) :
    Live.main pf (.ok rm.steady) = main pf (.ok rm) := by
  unfold Live.main main
  simp only [steady_after, live_forEach_steady, processNamespace_steady]
  rfl

/-! ## Claims on retrieval failures -/

theorem views_of_error (r1 r2 r3 r4 : Run Unit) (e : String)
    (h : (r1.andThen (fun _ => r2.andThen (fun _ => r3.andThen (fun _ => r4)))).res = .err e) :
    ∃ report ∈ [Line.resourcesError, Line.connectionsError, Line.relationshipsError,
        Line.usageError],
      orSkip r1 .resourcesError (orSkip r2 .connectionsError
          (orSkip r3 .relationshipsError (orSkip r4 .usageError (emit .separator))))
        = ⟨(r1.andThen (fun _ => r2.andThen (fun _ => r3.andThen (fun _ => r4)))).trace ++
            [.out (report e)], .ok ()⟩ := by
  unfold Run.andThen at h ⊢
  cases h1 : r1.res with
  | crash => simp [h1] at h
  | err e1 =>
    simp only [h1, Res.err.injEq] at h ⊢
    subst h
    exact ⟨Line.resourcesError, by simp, by rw [orSkip_err _ _ _ _ h1]⟩
  | ok u1 =>
    simp only [h1] at h ⊢
    rw [orSkip_ok _ _ _ h1]
    cases h2 : r2.res with
    | crash => simp [h2] at h
    | err e2 =>
      simp only [h2, Res.err.injEq] at h ⊢
      subst h
      exact ⟨Line.connectionsError, by simp, by rw [orSkip_err _ _ _ _ h2]; simp⟩
    | ok u2 =>
      simp only [h2] at h ⊢
      rw [orSkip_ok _ _ _ h2]
      cases h3 : r3.res with
      | crash => simp [h3] at h
      | err e3 =>
        simp only [h3, Res.err.injEq] at h ⊢
        subst h
        exact ⟨Line.relationshipsError, by simp, by rw [orSkip_err _ _ _ _ h3]; simp⟩
      | ok u3 =>
        simp only [h3] at h ⊢
        rw [orSkip_ok _ _ _ h3, orSkip_err _ _ _ _ h]
        exact ⟨Line.usageError, by simp, by simp⟩

theorem live_processNamespace_of_error (pf : Platform) (ns : String) (src : Source)
    (e : String) (h : (Live.namespaceSteps pf ns src).res = .err e) :
    ∃ report ∈ [Line.resourcesError, Line.connectionsError, Line.relationshipsError,
        Line.usageError],
      Live.processNamespace pf ns src
        = ⟨namespaceBanner ns ++ (Live.namespaceSteps pf ns src).trace ++ [.out (report e)],
            .ok ()⟩ := by
  obtain ⟨report, hmem, heq⟩ := views_of_error _ _ _ _ e h
  refine ⟨report, hmem, ?_⟩
  rw [live_processNamespace_eq]
  have hv : Live.namespaceViews pf ns src
      = ⟨(Live.namespaceSteps pf ns src).trace ++ [.out (report e)], .ok ()⟩ := heq
  rw [hv, List.append_assoc]

/-- C6 amended: when a retrieval fails while a namespace is processed, whichever
request it is and whatever succeeded before it (also an earlier request for the same
list), the rest of the processing of that namespace is skipped and nothing already
printed is taken back: the output for the namespace is the namespace banner, everything
the views printed up to the failing request, which is the last event before the logged
error, and then the logged error, with no later view and no closing separator; the
namespace loop goes on.  When the pod list of `getResources` fails after the deployment
and service lists succeeded, what was printed before is the resources header, the
deployment lines, the service lines and the pods header. -/
theorem failed_namespace_output (pf : Platform) (ns : String) (src : Source) (e : String)
    (h : (Live.namespaceSteps pf ns src).res = .err e) :
    (∃ report ∈ [Line.resourcesError, Line.connectionsError, Line.relationshipsError,
        Line.usageError],
      Live.processNamespace pf ns src
        = ⟨namespaceBanner ns ++ (Live.namespaceSteps pf ns src).trace ++ [.out (report e)],
            .ok ()⟩) ∧
    (∃ pre r, (Live.namespaceSteps pf ns src).trace = pre ++ [.call r]) ∧
    (∀ ds svcs, src.deployments 0 ns = .ok ds → (∀ d ∈ ds, hasReplicas d = true) →
      src.services 1 ns = .ok svcs → src.pods 2 ns "" = .error e →
      Live.processNamespace pf ns src
        = ⟨namespaceBanner ns ++ resourceEventsToPods ns ds svcs ++ [.out (.resourcesError e)],
            .ok ()⟩) := by
  refine ⟨live_processNamespace_of_error pf ns src e h,
    ((stops_namespaceSteps pf ns).stops src).at_call e h, ?_⟩
  intro ds svcs hD hr hS hP
  have hg := live_getResources_pods_fail ns src ds svcs e hD hr hS hP
  rw [live_processNamespace_eq]
  have hv : Live.namespaceViews pf ns src
      = orSkip (Live.getResources ns src) .resourcesError
          (Live.orSkip (Live.mapServiceConnections pf ns) .connectionsError
            (Live.orSkip (Live.showResourceRelationships pf ns) .relationshipsError
              (Live.orSkip (Live.showConfigMapUsage pf ns) .usageError
                (Live.emit .separator)))
            (src.after (ticks (Live.getResources ns src).trace))) := rfl
  rw [hv, orSkip_err _ _ _ e (by rw [hg]), hg, List.append_assoc]

/-- C6 amended, in namespace `ns2` of the examples: against `driftingSource` the
ConfigMap list succeeds in `getResources` and fails in `showConfigMapUsage`, after three
views were printed; against the steady source of `flakyClient` the pod list of
`getResources` fails. -/
theorem failed_namespace_output_witness :
    ((Live.namespaceSteps demoPlatform "ns2" (driftingSource.after 12)).res
        = .err "configmaps gone" ∧
      driftingSource.configMaps 15 "ns2" = .ok [{ name := "app-config" }, { name := "unused" }] ∧
      driftingSource.configMaps 21 "ns2" = .error "configmaps gone" ∧
      Event.out (.configMap "app-config")
        ∈ (Live.processNamespace demoPlatform "ns2" (driftingSource.after 12)).trace ∧
      Event.out (.usageError "configmaps gone")
        ∈ (Live.processNamespace demoPlatform "ns2" (driftingSource.after 12)).trace) ∧
    (∃ report ∈ [Line.resourcesError, Line.connectionsError, Line.relationshipsError,
        Line.usageError],
      Live.processNamespace demoPlatform "ns2" (driftingSource.after 12)
        = ⟨namespaceBanner "ns2" ++
            (Live.namespaceSteps demoPlatform "ns2" (driftingSource.after 12)).trace ++
            [.out (report "configmaps gone")], .ok ()⟩) ∧
    (∃ pre r, (Live.namespaceSteps demoPlatform "ns2" (driftingSource.after 12)).trace
      = pre ++ [.call r]) ∧
    Live.processNamespace demoPlatform "ns2" flakyClient.steady
      = ⟨namespaceBanner "ns2" ++
          resourceEventsToPods "ns2"
            [{ name := "web", replicas := some 2, availableReplicas := 2 }]
            [webService, externalService] ++
          [.out (.resourcesError "pods unavailable")], .ok ()⟩ :=
  have h := failed_namespace_output demoPlatform "ns2" (driftingSource.after 12)
    "configmaps gone" (by decide)
  have h2 := failed_namespace_output demoPlatform "ns2" flakyClient.steady
    "pods unavailable" (by decide)
  ⟨⟨by decide, rfl, rfl, by decide, by decide⟩, h.1, h.2.1,
    h2.2.2 _ _ rfl (by decide) rfl rfl⟩

/-- C7: when the namespace enumeration succeeds (and no record holds a nil pointer the
program dereferences), a retrieval failure while one namespace is processed, whichever
request it is, affects that namespace only: the run ends with success status; its
output is the banner, then the output of every namespace in order, each processed
against the source as it stands when its turn comes, then the completion line;
processing a namespace always returns to the loop; and the output of a namespace is
the same against every source that answers the requests issued for that namespace
alike, whatever was answered for the other namespaces. -/
theorem retrieval_failure_is_isolated (pf : Platform) (src : Source) (nss : List String)
    (hN : src.namespaces 0 = .ok nss) (hwf : ∀ ns ∈ nss, NilFree ns src) :
    (Live.main pf (.ok src)).exit = .success ∧
    (Live.main pf (.ok src)).trace
      = [.out .banner, .out .separator, .call .namespaces] ++
          Live.namespaceOutputs pf nss (src.after 1) ++ [.out .complete] ∧
    (∀ ns rest s, Live.namespaceOutputs pf (ns :: rest) s
      = (Live.processNamespace pf ns s).trace ++
          Live.namespaceOutputs pf rest
            (s.after (ticks (Live.processNamespace pf ns s).trace))) ∧
    (∀ ns ∈ nss, ∀ n, (Live.processNamespace pf ns (src.after n)).res = .ok ()) ∧
    (∀ ns s1 s2, AgreeOn ns s1 s2 →
      Live.processNamespace pf ns s1 = Live.processNamespace pf ns s2) := by
  rw [live_main_eq pf src nss hN hwf]
  exact ⟨rfl, rfl, fun _ _ _ => rfl,
    fun ns hns n => live_processNamespace_res_ok pf ns _ (nilFree_after ns src (hwf ns hns) n),
    fun ns s1 s2 h => (local_processNamespace pf ns).same s1 s2 h⟩

theorem nilFree_of_demo (src : Source) (ns : String)
    (hD : ∀ n, src.deployments n ns = demoClient.deployments ns)
    (hI : ∀ n, src.ingresses n ns = demoClient.ingresses ns) : NilFree ns src := by
  constructor
  · intro n ds h d hd
    rw [hD] at h
    simp only [demoClient, Except.ok.injEq] at h
    subst h
    simp only [List.mem_singleton] at hd
    subst hd
    rfl
  · intro n ings h i hi
    rw [hI] at h
    simp only [demoClient, Except.ok.injEq] at h
    subst h
    simp only [List.mem_singleton] at hi
    subst hi
    decide

theorem drifting_ns1_ticks :
    ticks (Live.processNamespace demoPlatform "ns1" (driftingSource.after 1)).trace = 11 := by
  decide

theorem drifting_ns2_ticks :
    ticks (Live.processNamespace demoPlatform "ns2" (driftingSource.after 12)).trace = 10 := by
  decide

theorem drifting_ns2_fails :
    (Live.namespaceSteps demoPlatform "ns2" (driftingSource.after 12)).res
      = .err "configmaps gone" := by
  decide

theorem drifting_outputs :
    Live.namespaceOutputs demoPlatform ["ns1", "ns2", "ns3"] (driftingSource.after 1)
      = (Live.processNamespace demoPlatform "ns1" (driftingSource.after 1)).trace ++
        (Live.processNamespace demoPlatform "ns2" (driftingSource.after 12)).trace ++
        (Live.processNamespace demoPlatform "ns3" (driftingSource.after 22)).trace := by
  have h1 : (driftingSource.after 1).after 11 = driftingSource.after 12 := rfl
  have h2 : (driftingSource.after 12).after 10 = driftingSource.after 22 := rfl
  simp only [Live.namespaceOutputs, drifting_ns1_ticks, h1, drifting_ns2_ticks, h2,
    List.append_nil, List.append_assoc]

/-- C7 at the cluster of the examples: in `ns2` the second ConfigMap list fails; the
run ends with success and prints the completion line, `ns2` ends with the logged error,
and `ns1` before it and `ns3` after it are processed exactly as against the source in
which nothing fails. -/
theorem retrieval_failure_is_isolated_witness :
    (driftingSource.namespaces 0 = .ok ["ns1", "ns2", "ns3"] ∧
      (Live.namespaceSteps demoPlatform "ns2" (driftingSource.after 12)).res
        = .err "configmaps gone" ∧
      Live.namespaceOutputs demoPlatform ["ns1", "ns2", "ns3"] (driftingSource.after 1)
        = (Live.processNamespace demoPlatform "ns1" (driftingSource.after 1)).trace ++
          (Live.processNamespace demoPlatform "ns2" (driftingSource.after 12)).trace ++
          (Live.processNamespace demoPlatform "ns3" (driftingSource.after 22)).trace) ∧
    (Live.main demoPlatform (.ok driftingSource)).exit = .success ∧
    (Live.main demoPlatform (.ok driftingSource)).trace
      = [.out .banner, .out .separator, .call .namespaces] ++
          Live.namespaceOutputs demoPlatform ["ns1", "ns2", "ns3"] (driftingSource.after 1) ++
          [.out .complete] ∧
    Live.processNamespace demoPlatform "ns1" (driftingSource.after 1)
      = Live.processNamespace demoPlatform "ns1" (calmSource.after 1) ∧
    Live.processNamespace demoPlatform "ns3" (driftingSource.after 22)
      = Live.processNamespace demoPlatform "ns3" (calmSource.after 23) :=
  have hagree : ∀ ns, ns ≠ "ns2" → ∀ a b,
      AgreeOn ns (driftingSource.after a) (calmSource.after b) := by
    intro ns hns a b n
    refine ⟨rfl, rfl, fun _ => rfl, ?_, rfl⟩
    simp [driftingSource, calmSource, Source.after, hns]
  have h := retrieval_failure_is_isolated demoPlatform driftingSource ["ns1", "ns2", "ns3"]
    rfl (fun ns _ => nilFree_of_demo driftingSource ns (fun _ => rfl) (fun _ => rfl))
  ⟨⟨rfl, drifting_ns2_fails, drifting_outputs⟩, h.1, h.2.1,
    h.2.2.2.2 "ns1" _ _ (hagree "ns1" (by decide) 1 1),
    h.2.2.2.2 "ns3" _ _ (hagree "ns3" (by decide) 22 23)⟩

end K8sMapper
